import Mathlib

/-!
Tagged-union decoding of `Sample` (package main, `main.go`).

A shallow embedding of `Sample.UnmarshalJSON`, of the parts of Go's
`encoding/json` it calls, and of the decode of a `SampleGroup` that calls it.

The input bytes `d` are handed to `json.Unmarshal`, whose scanner first checks
them (`checkValid`) and then walks the value.  The embedding takes the bytes
(they are quoted in the "no body" message) together with what the scanner makes
of them: `Scan.invalid` for text that is not JSON, `Scan.value v` for the value
it spells.  Strings in a `JSON` tree are the decoded strings (escapes resolved),
object members are kept in the order of the text, duplicates included.

A decode by the library keeps the first error it meets and goes on to the end of
the value; this holds for the decode of a `SampleGroup` too, where an error that
`UnmarshalJSON` returns for an entry is kept like any other.
-/

namespace Main

/-! ## JSON values as `encoding/json` reads them -/

/-- A JSON value.  A number keeps its literal: the program never converts one. -/
inductive JSON where
  | null
  | bool (b : Bool)
  | number (lit : String)
  | string (s : String)
  | array (items : List JSON)
  | object (members : List (String × JSON))

/-- The word `encoding/json` puts in `UnmarshalTypeError.Value` for a value. -/
def JSON.kind : JSON → String
  | .null => "null"
  | .bool _ => "bool"
  | .number _ => "number"
  | .string _ => "string"
  | .array _ => "array"
  | .object _ => "object"

/-- What the scanner makes of the input bytes: a complaint (`*json.SyntaxError`
message) or the value they spell. -/
inductive Scan where
  | invalid (msg : String)
  | value (v : JSON)

/-! ## Errors -/

/-- The error values `Sample.UnmarshalJSON` can return. -/
inductive DecodeError where
  /-- `*json.SyntaxError`: the bytes are not JSON. -/
  | SyntaxError (msg : String)
  /-- `*json.UnmarshalTypeError`: a JSON value of kind `Value` cannot be stored in
  a Go value of type `GoType` (`Struct`, `Field` name the struct field, or are
  empty at top level). -/
  | UnmarshalTypeError (Value GoType Struct Field : String)
  /-- Line 33: `fmt.Errorf("no body: %s", string(d))`. -/
  | noBody (d : String)
  /-- Line 75: `fmt.Errorf("invalid type %s", s.Type)`. -/
  | invalidType (t : String)
  deriving DecidableEq, Repr

/-- The `Error()` text of an error value. -/
def DecodeError.Error : DecodeError → String
  | .SyntaxError msg => msg
  | .UnmarshalTypeError v t st f =>
    if st = "" ∧ f = "" then
      "json: cannot unmarshal " ++ v ++ " into Go value of type " ++ t
    else
      "json: cannot unmarshal " ++ v ++ " into Go struct field " ++ st ++ "." ++ f
        ++ " of type " ++ t
  | .noBody d => "no body: " ++ d
  | .invalidType t => "invalid type " ++ t

/-- The decoder keeps the first error it meets and goes on (`d.saveError`). -/
def saveError (saved : Option DecodeError) (e : DecodeError) : Option DecodeError :=
  match saved with
  | none => some e
  | some e0 => some e0

/-! ## Payload variants (lines 88-110) -/

structure SampleBody1 where
  Value : String
  deriving DecidableEq, Repr

def SampleBody1.GetValue (s : SampleBody1) : String := s.Value

structure SampleBody2 where
  Value : String
  deriving DecidableEq, Repr

def SampleBody2.GetValue (s : SampleBody2) : String := s.Value

structure SampleBody3 where
  Value : String
  deriving DecidableEq, Repr

def SampleBody3.GetValue (s : SampleBody3) : String := s.Value

/-- A non-nil value of the interface `SampleBody` (lines 8-10): one of the three
payload types the program stores in it. -/
inductive SampleBody where
  | ofSampleBody1 (dest : SampleBody1)
  | ofSampleBody2 (dest : SampleBody2)
  | ofSampleBody3 (dest : SampleBody3)
  deriving DecidableEq, Repr

/-- Calling `GetValue()` through the interface runs the method of the dynamic type. -/
def SampleBody.GetValue : SampleBody → String
  | .ofSampleBody1 dest => dest.GetValue
  | .ofSampleBody2 dest => dest.GetValue
  | .ofSampleBody3 dest => dest.GetValue

def SampleType1 : String := "one"
def SampleType2 : String := "two"
def SampleType3 : String := "three"

/-- The struct `Sample` (lines 20-23); `Body = none` is the nil interface.  The
field `Type` is written `Type_`, `Type` being a keyword of Lean. -/
structure Sample where
  Type_ : String
  Body : Option SampleBody
  deriving DecidableEq, Repr

/-! ## The parts of `encoding/json` the method uses -/

/-- Case folding of one rune of a member name.  ASCII letters fold to upper case;
the only other runes that fold to an ASCII letter are U+212A (Kelvin sign, to K)
and U+017F (long s, to S). -/
def foldRune (c : Char) : Char :=
  if c.toNat = 0x212A then 'K'
  else if c.toNat = 0x17F then 'S'
  else if 97 ≤ c.toNat ∧ c.toNat ≤ 122 then Char.ofNat (c.toNat - 32)
  else c

/-- A member name folded for the case-insensitive match with a struct field
(exact against the ASCII field names of this program: "type", "body", "value"). -/
def foldName (key : String) : List Char := key.data.map foldRune

/-- Whether an object member named `key` is stored in the struct field tagged
`name` (exact or case-insensitive match). -/
def matchesField (key name : String) : Bool := foldName key == foldName name

/-- A Go `map[string]json.RawMessage`: each key once, with its raw value. -/
abbrev RawMap := List (String × JSON)

/-- The assignment `m[key] = raw`. -/
def RawMap.set (m : RawMap) (key : String) (raw : JSON) : RawMap :=
  m.filter (fun p => p.1 != key) ++ [(key, raw)]

/-- The lookup `raw, ok := m[key]`. -/
def RawMap.get : RawMap → String → Option JSON
  | [], _ => none
  | p :: m, key => if p.1 = key then some p.2 else RawMap.get m key

/-- The statement `delete(m, key)`. -/
def RawMap.delete (m : RawMap) (key : String) : RawMap :=
  m.filter (fun p => p.1 != key)

/-- The map an object fills: member by member, a later duplicate replacing the
earlier one. -/
def objectMap (members : List (String × JSON)) : RawMap :=
  members.foldl (fun m p => m.set p.1 p.2) []

/-- `json.Unmarshal(d, &m)` for a nil `m` of type `map[string]json.RawMessage`
(line 27).  An object fills a fresh map; `null` leaves `m` nil (read here as the
empty map: the program only reads it); any other value is a type error. -/
def unmarshalRawMap : Scan → RawMap × Option DecodeError
  | .invalid msg => ([], some (.SyntaxError msg))
  | .value (.object members) => (objectMap members, none)
  | .value .null => ([], none)
  | .value v =>
    ([], some (.UnmarshalTypeError v.kind "map[string]json.RawMessage" "" ""))

/-- `json.Marshal(m)` (line 46), read back as the object it spells: the members
of the map in increasing key order (Go compares the keys bytewise, which on UTF-8
is the order of the code points).  It cannot fail on raw values that came out of
a decode. -/
def marshalRawMap (m : RawMap) : List (String × JSON) :=
  m.insertionSort (fun p q => p.1.data ≤ q.1.data)

/-- One member of the object decoded into a `sampleAlias` (fields `Type` tagged
"type", of string kind, and `Body` tagged "body", of the interface type
`SampleBody`).  A string is stored in `Type`; `null` changes nothing in `Type` and
sets `Body` to nil; any other value is a type error; members matching no field are
skipped. -/
def sampleAliasMember (st : Sample × Option DecodeError) (p : String × JSON) :
    Sample × Option DecodeError :=
  if matchesField p.1 "type" then
    match p.2 with
    | .string x => ({ st.1 with Type_ := x }, st.2)
    | .null => st
    | v => (st.1, saveError st.2
        (.UnmarshalTypeError v.kind "main.SampleType" "sampleAlias" "type"))
  else if matchesField p.1 "body" then
    match p.2 with
    | .null => ({ st.1 with Body := none }, st.2)
    | v => (st.1, saveError st.2
        (.UnmarshalTypeError v.kind "main.SampleBody" "sampleAlias" "body"))
  else st

/-- `json.Unmarshal(dataSample, &newS)` for a zero `newS` of type `sampleAlias`
(lines 55-57), on the object `dataSample` spells.  `sampleAlias` has the fields of
`Sample` and no methods, so the library decodes the fields itself. -/
def unmarshalSampleAlias (dataSample : List (String × JSON)) :
    Sample × Option DecodeError :=
  dataSample.foldl sampleAliasMember ({ Type_ := "", Body := none }, none)

/-- One member of the object decoded into a payload struct (one field `Value`
tagged "value", of kind string) named `goStruct`. -/
def valueMember (goStruct : String) (st : String × Option DecodeError)
    (p : String × JSON) : String × Option DecodeError :=
  if matchesField p.1 "value" then
    match p.2 with
    | .string x => (x, st.2)
    | .null => st
    | v => (st.1, saveError st.2 (.UnmarshalTypeError v.kind "string" goStruct "value"))
  else st

/-- `json.Unmarshal(rawBody, &dest)` for a zero `dest` of a payload struct type
named `goStruct` (lines 67, 70, 73): the decoded `Value` and the error.  `null`
leaves `dest` as it is, an object is decoded member by member, any other value is
a type error. -/
def unmarshalValueStruct (goStruct : String) : JSON → String × Option DecodeError
  | .null => ("", none)
  | .object members => members.foldl (valueMember goStruct) ("", none)
  | v => ("", some (.UnmarshalTypeError v.kind ("main." ++ goStruct) "" ""))

/-! ## `Sample.UnmarshalJSON` (lines 25-86) -/

/-- The closure `unmarshalBody` (lines 63-77), with `s.Type` and `rawBody` as
arguments: the interface value and the error it returns. -/
def unmarshalBody (type_ : String) (rawBody : JSON) :
    Option SampleBody × Option DecodeError :=
  if type_ = SampleType1 then
    let r := unmarshalValueStruct "SampleBody1" rawBody
    (some (.ofSampleBody1 { Value := r.1 }), r.2)
  else if type_ = SampleType2 then
    let r := unmarshalValueStruct "SampleBody2" rawBody
    (some (.ofSampleBody2 { Value := r.1 }), r.2)
  else if type_ = SampleType3 then
    let r := unmarshalValueStruct "SampleBody3" rawBody
    (some (.ofSampleBody3 { Value := r.1 }), r.2)
  else
    (none, some (.invalidType type_))

/-- The method `(s *Sample) UnmarshalJSON(d []byte) error`: from the receiver
before the call, the bytes and their scan, the receiver after the call and the
returned error (`none` is nil). -/
def Sample.UnmarshalJSON (s : Sample) (d : String) (doc : Scan) :
    Sample × Option DecodeError :=
  match unmarshalRawMap doc with
  | (_, some err) => (s, some err)
  | (m, none) =>
    match m.get "body" with
    | none => (s, some (.noBody d))
    | some rawBody =>
      let m := m.delete "body"
      let dataSample := marshalRawMap m
      match unmarshalSampleAlias dataSample with
      | (_, some err) => (s, some err)
      | (newS, none) =>
        let s := newS
        match unmarshalBody s.Type_ rawBody with
        | (_, some err) => (s, some err)
        | (sampleBody, none) => ({ s with Body := sampleBody }, none)

/-- The envelope object with members "type" and "body", in this order. -/
def envelope (t : String) (body : JSON) : JSON :=
  .object [("type", .string t), ("body", body)]

/-- The `Type` the members of an object other than "body" decode to (lines
35-57): `none` when the decode into `sampleAlias` returns an error. -/
def decodedType (members : List (String × JSON)) : Option String :=
  match unmarshalSampleAlias (marshalRawMap ((objectMap members).delete "body")) with
  | (newS, none) => some newS.Type_
  | (_, some _) => none

/-! ## `SampleGroup` (lines 112-115) and its decode by `encoding/json` -/

/-- A Go `map[string]Sample`: each key once.  The nil map is read as the empty
one. -/
abbrev SampleMap := List (String × Sample)

/-- The assignment `m[key] = elem`. -/
def SampleMap.set (m : SampleMap) (key : String) (elem : Sample) : SampleMap :=
  m.filter (fun p => p.1 != key) ++ [(key, elem)]

/-- The lookup `elem, ok := m[key]`. -/
def SampleMap.get : SampleMap → String → Option Sample
  | [], _ => none
  | p :: m, key => if p.1 = key then some p.2 else SampleMap.get m key

/-- The struct `SampleGroup`. -/
structure SampleGroup where
  ID : String
  Samples : SampleMap
  deriving DecidableEq, Repr

/-- The decode of one entry of a "samples" object: the library calls
`UnmarshalJSON` on a zero `Sample` with the bytes of the entry (`spell` gives the
bytes of the input that spell a value). -/
def decodeEntry (spell : JSON → String) (v : JSON) : Sample × Option DecodeError :=
  Sample.UnmarshalJSON { Type_ := "", Body := none } (spell v) (.value v)

/-- One entry of a "samples" object, from the map and the saved error so far.
The entry is stored as the call left it; an error the call returns is saved
unchanged, unless an earlier error is already saved, and the decode goes on.
(Releases of the library before its rewrite on json/v2 end the decode at such an
error instead.) -/
def samplesEntry (spell : JSON → String) (st : SampleMap × Option DecodeError)
    (p : String × JSON) : SampleMap × Option DecodeError :=
  match decodeEntry spell p.2 with
  | (elem, some err) => (st.1.set p.1 elem, saveError st.2 err)
  | (elem, none) => (st.1.set p.1 elem, st.2)

/-- The entries of a "samples" object, in the order of the text. -/
def unmarshalSamples (spell : JSON → String) (entries : List (String × JSON))
    (st : SampleMap × Option DecodeError) : SampleMap × Option DecodeError :=
  entries.foldl (samplesEntry spell) st

/-- One member of the object decoded into a `SampleGroup` (fields `ID` tagged
"id", of kind string, and `Samples` tagged "samples", a map of `Sample`), from the
group and the saved error so far. -/
def groupMember (spell : JSON → String) (st : SampleGroup × Option DecodeError)
    (p : String × JSON) : SampleGroup × Option DecodeError :=
  if matchesField p.1 "id" then
    match p.2 with
    | .string x => ({ st.1 with ID := x }, st.2)
    | .null => st
    | v => (st.1, saveError st.2 (.UnmarshalTypeError v.kind "string" "SampleGroup" "id"))
  else if matchesField p.1 "samples" then
    match p.2 with
    | .object entries =>
      ({ st.1 with Samples := (unmarshalSamples spell entries (st.1.Samples, st.2)).1 },
        (unmarshalSamples spell entries (st.1.Samples, st.2)).2)
    | .null => ({ st.1 with Samples := [] }, st.2)
    | v => (st.1, saveError st.2
        (.UnmarshalTypeError v.kind "map[string]main.Sample" "SampleGroup" "samples"))
  else st

/-- The members of the object decoded into a `SampleGroup`, in the order of the
text: the first error met is the one kept. -/
def unmarshalGroupMembers (spell : JSON → String) (members : List (String × JSON))
    (st : SampleGroup × Option DecodeError) : SampleGroup × Option DecodeError :=
  members.foldl (groupMember spell) st

/-- `json.Unmarshal([]byte(input), &group)` for a zero `group` (line 145): the
group after the call and the returned error. -/
def unmarshalSampleGroup (spell : JSON → String) : Scan → SampleGroup × Option DecodeError
  | .invalid msg => ({ ID := "", Samples := [] }, some (.SyntaxError msg))
  | .value (.object members) =>
    unmarshalGroupMembers spell members ({ ID := "", Samples := [] }, none)
  | .value .null => ({ ID := "", Samples := [] }, none)
  | .value v =>
    ({ ID := "", Samples := [] }, some (.UnmarshalTypeError v.kind "main.SampleGroup" "" ""))

/-- The object of a collection: "id" and then "samples" with the given entries. -/
def groupObject (id : String) (entries : List (String × JSON)) : JSON :=
  .object [("id", .string id), ("samples", .object entries)]

/-- The input of `main` (lines 118-142) as the scanner reads it. -/
def mainInput : JSON :=
  groupObject "123"
    [("1", envelope "one" (.object [("value", .string "this is a value 1")])),
     ("2", envelope "two" (.object [("value", .string "this is a value 2")])),
     ("3", envelope "three" (.object [("value", .string "this is a value 3")]))]

/-! ## The calls of `UnmarshalJSON` that the library makes -/

/-- The Go types that hold the base fields "type" and "body": `Sample`, which
declares the method `UnmarshalJSON` (line 25), and `sampleAlias` (line 55), a type
defined from `Sample`, which has its fields and none of its methods. -/
inductive Dest where
  | Sample
  | sampleAlias
  deriving DecidableEq, Repr

/-- Whether the type (through a pointer) has the method `UnmarshalJSON`. -/
def Dest.hasUnmarshalJSON : Dest → Bool
  | .Sample => true
  | .sampleAlias => false

/-- A call: `json.Unmarshal(data, &v)` with `v` of the given type, or the method
`UnmarshalJSON` of `Sample`. -/
inductive Call where
  | jsonUnmarshal (dest : Dest)
  | UnmarshalJSON

/-- The library's own decode of a value into the fields `Type` and `Body` of `v`,
for a type without the method: an object is decoded member by member, `null`
changes nothing, any other value is a type error. -/
def unmarshalFields (v : Sample) : JSON → Sample × Option DecodeError
  | .object members => members.foldl sampleAliasMember (v, none)
  | .null => (v, none)
  | j => (v, some (.UnmarshalTypeError j.kind "main.sampleAlias" "" ""))

/-- A call run with its nested calls, to a nesting depth of at most `depth`: the
outcome and the number of times `UnmarshalJSON` of `Sample` was entered, or `none`
when the depth does not suffice.  `json.Unmarshal` checks the bytes, then hands
them to the method of the destination when its type has one, and decodes the
fields itself otherwise.  The method is lines 25-86, its decode of `dataSample`
being the call `json.Unmarshal(dataSample, &newS)` with `newS` a `sampleAlias`
(`encode` gives the bytes `json.Marshal` wrote). -/
def runCall (encode : List (String × JSON) → String) :
    Nat → Call → Sample → String → Scan → Option ((Sample × Option DecodeError) × Nat)
  | 0, _, _, _, _ => none
  | depth + 1, .jsonUnmarshal dest, v, data, doc =>
    match doc with
    | .invalid msg => some ((v, some (.SyntaxError msg)), 0)
    | .value j =>
      if dest.hasUnmarshalJSON then runCall encode depth .UnmarshalJSON v data doc
      else some (unmarshalFields v j, 0)
  | depth + 1, .UnmarshalJSON, s, d, doc =>
    match unmarshalRawMap doc with
    | (_, some err) => some ((s, some err), 1)
    | (m, none) =>
      match m.get "body" with
      | none => some ((s, some (.noBody d)), 1)
      | some rawBody =>
        match runCall encode depth (.jsonUnmarshal .sampleAlias) { Type_ := "", Body := none }
            (encode (marshalRawMap (m.delete "body")))
            (.value (.object (marshalRawMap (m.delete "body")))) with
        | none => none
        | some ((_, some err), n) => some ((s, some err), n + 1)
        | some ((newS, none), n) =>
          match unmarshalBody newS.Type_ rawBody with
          | (_, some err) => some ((newS, some err), n + 1)
          | (sampleBody, none) => some (({ newS with Body := sampleBody }, none), n + 1)

/-! ## Facts about the library model -/

theorem RawMap.get_append (m n : RawMap) (k : String) :
    RawMap.get (m ++ n) k = (RawMap.get m k).or (RawMap.get n k) := by
  induction m with
  | nil => simp [RawMap.get]
  | cons a m ih =>
    by_cases hk : a.1 = k
    · simp [RawMap.get, hk]
    · simp [RawMap.get, hk, ih]

theorem RawMap.get_filter_ne (m : RawMap) (k key : String) (h : key ≠ k) :
    RawMap.get (m.filter (fun p => p.1 != key)) k = RawMap.get m k := by
  induction m with
  | nil => rfl
  | cons a m ih =>
    by_cases hak : a.1 = key
    · have hk : a.1 ≠ k := by rw [hak]; exact h
      simp [List.filter_cons, hak, RawMap.get, hk, ih, h]
    · by_cases hk : a.1 = k
      · have hkk : ¬ k = key := fun e => hak (hk.trans e)
        simp [List.filter_cons, hak, RawMap.get, hk, hkk]
      · simp [List.filter_cons, hak, RawMap.get, hk, ih]

theorem RawMap.get_filter_self (m : RawMap) (k : String) :
    RawMap.get (m.filter (fun p => p.1 != k)) k = none := by
  induction m with
  | nil => rfl
  | cons a m ih =>
    by_cases hak : a.1 = k
    · simp [List.filter_cons, hak, ih]
    · simp [List.filter_cons, hak, RawMap.get, ih]

theorem RawMap.get_set_ne (m : RawMap) (k key : String) (raw : JSON) (h : key ≠ k) :
    (m.set key raw).get k = m.get k := by
  simp [RawMap.set, RawMap.get_append, RawMap.get_filter_ne m k key h, RawMap.get, h]

theorem RawMap.get_set_self (m : RawMap) (k : String) (raw : JSON) :
    (m.set k raw).get k = some raw := by
  simp [RawMap.set, RawMap.get_append, RawMap.get_filter_self, RawMap.get]

theorem foldl_set_get_none (members : List (String × JSON)) (k : String)
    (h : ∀ p ∈ members, p.1 ≠ k) (acc : RawMap) (hacc : acc.get k = none) :
    (members.foldl (fun m p => m.set p.1 p.2) acc).get k = none := by
  induction members generalizing acc with
  | nil => simpa using hacc
  | cons a members ih =>
    simp only [List.foldl_cons]
    apply ih (fun p hp => h p (List.mem_cons_of_mem _ hp))
    rw [RawMap.get_set_ne _ _ _ _ (h a (List.mem_cons_self _ _))]
    exact hacc

theorem foldl_set_get_isSome (members : List (String × JSON)) (k : String)
    (acc : RawMap) (h : (∃ p ∈ members, p.1 = k) ∨ (acc.get k).isSome) :
    ((members.foldl (fun m p => m.set p.1 p.2) acc).get k).isSome := by
  induction members generalizing acc with
  | nil =>
    rcases h with ⟨p, hp, _⟩ | h
    · cases hp
    · simpa using h
  | cons a members ih =>
    simp only [List.foldl_cons]
    apply ih
    by_cases hak : a.1 = k
    · right
      rw [hak, RawMap.get_set_self]
      rfl
    · rcases h with ⟨p, hp, hpk⟩ | h
      · rcases List.mem_cons.1 hp with rfl | hp
        · exact absurd hpk hak
        · exact Or.inl ⟨p, hp, hpk⟩
      · right
        rw [RawMap.get_set_ne _ _ _ _ hak]
        exact h

/-- An object without a member named `k` fills a map without the key `k`. -/
theorem objectMap_get_none (members : List (String × JSON)) (k : String)
    (h : ∀ p ∈ members, p.1 ≠ k) : (objectMap members).get k = none :=
  foldl_set_get_none members k h [] rfl

/-- An object with a member named `k` fills a map with the key `k`. -/
theorem objectMap_get_isSome (members : List (String × JSON)) (k : String)
    (h : ∃ p ∈ members, p.1 = k) : ((objectMap members).get k).isSome :=
  foldl_set_get_isSome members k [] (Or.inl h)

/-- On an envelope object the outcome is that of `unmarshalBody` on its "body",
with `Type` set from its "type". -/
theorem UnmarshalJSON_envelope (s : Sample) (d t : String) (body : JSON) :
    Sample.UnmarshalJSON s d (.value (envelope t body)) =
      match unmarshalBody t body with
      | (_, some err) => ({ Type_ := t, Body := none }, some err)
      | (sampleBody, none) => ({ Type_ := t, Body := sampleBody }, none) := rfl

theorem foldl_valueMember_skip (g : String) (fields : List (String × JSON))
    (h : ∀ p ∈ fields, matchesField p.1 "value" = false) (st : String × Option DecodeError) :
    fields.foldl (valueMember g) st = st := by
  induction fields generalizing st with
  | nil => rfl
  | cons a fields ih =>
    simp only [List.foldl_cons]
    rw [show valueMember g st a = st by simp [valueMember, h a (List.mem_cons_self _ _)]]
    exact ih (fun p hp => h p (List.mem_cons_of_mem _ hp)) st

theorem valueMember_keeps_error (g : String) (st : String × Option DecodeError)
    (p : String × JSON) (e : DecodeError) (h : st.2 = some e) :
    (valueMember g st p).2 = some e := by
  unfold valueMember
  split
  · split <;> simp [h, saveError]
  · exact h

theorem foldl_valueMember_keeps_error (g : String) (fields : List (String × JSON))
    (st : String × Option DecodeError) (e : DecodeError) (h : st.2 = some e) :
    (fields.foldl (valueMember g) st).2 = some e := by
  induction fields generalizing st with
  | nil => exact h
  | cons a fields ih =>
    simp only [List.foldl_cons]
    exact ih _ (valueMember_keeps_error g st a e h)

theorem kind_of_not_string_null (v : JSON) (h1 : ∀ x, v = JSON.string x → False)
    (h2 : v = JSON.null → False) : v.kind ∈ ["number", "bool", "array", "object"] := by
  cases v with
  | null => exact absurd rfl h2
  | string x => exact absurd rfl (h1 x)
  | bool b => simp [JSON.kind]
  | number n => simp [JSON.kind]
  | array items => simp [JSON.kind]
  | object ms => simp [JSON.kind]

/-- A "value" member that is a number, a boolean, an array or an object leaves a
type error on the field, whatever the other members are. -/
theorem foldl_valueMember_error (g : String) (fields : List (String × JSON)) (v : JSON)
    (hmem : ("value", v) ∈ fields) (hv : v.kind ∈ ["number", "bool", "array", "object"])
    (st : String × Option DecodeError)
    (hst : st.2 = none ∨ ∃ k, k ∈ ["number", "bool", "array", "object"] ∧
      st.2 = some (.UnmarshalTypeError k "string" g "value")) :
    ∃ k, k ∈ ["number", "bool", "array", "object"] ∧
      (fields.foldl (valueMember g) st).2 = some (.UnmarshalTypeError k "string" g "value") := by
  induction fields generalizing st with
  | nil => cases hmem
  | cons a fields ih =>
    simp only [List.foldl_cons]
    rcases hst with hnone | ⟨k, hkin, hk⟩
    · rcases List.mem_cons.1 hmem with rfl | hmem
      · refine ⟨v.kind, hv, foldl_valueMember_keeps_error g fields _ _ ?_⟩
        have hm : matchesField "value" "value" = true := by decide
        cases v <;> simp [JSON.kind] at hv <;> simp [valueMember, hm, hnone, saveError, JSON.kind]
      · apply ih hmem
        unfold valueMember
        split
        · split
          · exact Or.inl hnone
          · exact Or.inl hnone
          · rename_i h1 h2
            exact Or.inr ⟨a.2.kind, kind_of_not_string_null a.2 h1 h2, by
              simp [hnone, saveError]⟩
        · exact Or.inl hnone
    · exact ⟨k, hkin,
        foldl_valueMember_keeps_error g fields _ _ (valueMember_keeps_error g st a _ hk)⟩

theorem sampleAliasMember_body (st : Sample × Option DecodeError) (p : String × JSON)
    (h : st.1.Body = none) : (sampleAliasMember st p).1.Body = none := by
  unfold sampleAliasMember
  split
  · split <;> simp [h]
  · split
    · split <;> simp [h]
    · exact h

theorem foldl_sampleAliasMember_body (l : List (String × JSON))
    (st : Sample × Option DecodeError) (h : st.1.Body = none) :
    (l.foldl sampleAliasMember st).1.Body = none := by
  induction l generalizing st with
  | nil => exact h
  | cons a l ih =>
    simp only [List.foldl_cons]
    exact ih _ (sampleAliasMember_body st a h)

/-- The decode into `sampleAlias` leaves `Body` nil. -/
theorem unmarshalSampleAlias_body (l : List (String × JSON)) :
    (unmarshalSampleAlias l).1.Body = none :=
  foldl_sampleAliasMember_body l _ rfl

/-- When `unmarshalBody` returns no error, the type is a valid label and the
interface holds the payload struct of that label. -/
theorem unmarshalBody_ok (t : String) (raw : JSON) (ob : Option SampleBody)
    (h : unmarshalBody t raw = (ob, none)) :
    (t = "one" ∧ ∃ x, ob = some (.ofSampleBody1 x)) ∨
    (t = "two" ∧ ∃ x, ob = some (.ofSampleBody2 x)) ∨
    (t = "three" ∧ ∃ x, ob = some (.ofSampleBody3 x)) := by
  unfold unmarshalBody at h
  simp only [SampleType1, SampleType2, SampleType3] at h
  split at h
  · rename_i ht
    simp only [Prod.mk.injEq] at h
    exact Or.inl ⟨ht, _, h.1.symm⟩
  · split at h
    · rename_i ht
      simp only [Prod.mk.injEq] at h
      exact Or.inr (Or.inl ⟨ht, _, h.1.symm⟩)
    · split at h
      · rename_i ht
        simp only [Prod.mk.injEq] at h
        exact Or.inr (Or.inr ⟨ht, _, h.1.symm⟩)
      · simp at h

/-- When `unmarshalBody` returns an error, it is the invalid-type error for a
type outside the labels, or a library type error for a type among them. -/
theorem unmarshalBody_error (t : String) (raw : JSON) (ob : Option SampleBody)
    (e : DecodeError) (h : unmarshalBody t raw = (ob, some e)) :
    (e = .invalidType t ∧ t ≠ "one" ∧ t ≠ "two" ∧ t ≠ "three") ∨
    ((∃ k ty st f, e = .UnmarshalTypeError k ty st f) ∧
      (t = "one" ∨ t = "two" ∨ t = "three")) := by
  have hv : ∀ g r, unmarshalValueStruct g raw = r → r.2 = some e →
      ∃ k ty st f, e = .UnmarshalTypeError k ty st f := by
    intro g r hr he
    subst hr
    unfold unmarshalValueStruct at he
    split at he
    · simp at he
    · rename_i members
      have key : ∀ (l : List (String × JSON)) (st : String × Option DecodeError),
          (st.2 = none ∨ ∃ k, st.2 = some (.UnmarshalTypeError k "string" g "value")) →
          ((l.foldl (valueMember g) st).2 = none ∨
            ∃ k, (l.foldl (valueMember g) st).2
              = some (.UnmarshalTypeError k "string" g "value")) := by
        intro l
        induction l with
        | nil => intro st hst; exact hst
        | cons a l ih =>
          intro st hst
          simp only [List.foldl_cons]
          apply ih
          rcases hst with hnone | ⟨k, hk⟩
          · unfold valueMember
            split
            · split
              · exact Or.inl hnone
              · exact Or.inl hnone
              · exact Or.inr ⟨a.2.kind, by simp [hnone, saveError]⟩
            · exact Or.inl hnone
          · exact Or.inr ⟨k, valueMember_keeps_error g st a _ hk⟩
      rcases key members ("", none) (Or.inl rfl) with h0 | ⟨k, hk⟩
      · rw [h0] at he; cases he
      · rw [hk] at he
        exact ⟨k, "string", g, "value", (Option.some.inj he).symm⟩
    · simp only [Option.some.injEq] at he
      exact ⟨_, _, _, _, he.symm⟩
  unfold unmarshalBody at h
  simp only [SampleType1, SampleType2, SampleType3] at h
  split at h
  · rename_i ht
    simp only [Prod.mk.injEq] at h
    exact Or.inr ⟨hv _ _ rfl h.2, Or.inl ht⟩
  · split at h
    · rename_i ht
      simp only [Prod.mk.injEq] at h
      exact Or.inr ⟨hv _ _ rfl h.2, Or.inr (Or.inl ht)⟩
    · split at h
      · rename_i ht
        simp only [Prod.mk.injEq] at h
        exact Or.inr ⟨hv _ _ rfl h.2, Or.inr (Or.inr ht)⟩
      · rename_i h1 h2 h3
        simp only [Prod.mk.injEq, Option.some.injEq] at h
        exact Or.inl ⟨h.2.symm, h1, h2, h3⟩

theorem sampleAliasMember_error (st : Sample × Option DecodeError) (p : String × JSON)
    (h : st.2 = none ∨ ∃ k ty g f, st.2 = some (.UnmarshalTypeError k ty g f)) :
    (sampleAliasMember st p).2 = none ∨
      ∃ k ty g f, (sampleAliasMember st p).2 = some (.UnmarshalTypeError k ty g f) := by
  unfold sampleAliasMember
  rcases h with h | ⟨k, ty, g, f, h⟩
  · split
    · split
      · exact Or.inl h
      · exact Or.inl h
      · exact Or.inr ⟨p.2.kind, "main.SampleType", "sampleAlias", "type", by
          simp only [h, saveError]⟩
    · split
      · split
        · exact Or.inl h
        · exact Or.inr ⟨p.2.kind, "main.SampleBody", "sampleAlias", "body", by
            simp only [h, saveError]⟩
      · exact Or.inl h
  · right
    refine ⟨k, ty, g, f, ?_⟩
    split
    · split <;> simp [h, saveError]
    · split
      · split <;> simp [h, saveError]
      · exact h

/-- An error of the decode into `sampleAlias` is a library type error. -/
theorem unmarshalSampleAlias_error (l : List (String × JSON)) (e : DecodeError)
    (h : (unmarshalSampleAlias l).2 = some e) :
    ∃ k ty g f, e = .UnmarshalTypeError k ty g f := by
  have key : ∀ (l : List (String × JSON)) (st : Sample × Option DecodeError),
      (st.2 = none ∨ ∃ k ty g f, st.2 = some (.UnmarshalTypeError k ty g f)) →
      ((l.foldl sampleAliasMember st).2 = none ∨
        ∃ k ty g f, (l.foldl sampleAliasMember st).2
          = some (.UnmarshalTypeError k ty g f)) := by
    intro l
    induction l with
    | nil => intro st hst; exact hst
    | cons a l ih =>
      intro st hst
      simp only [List.foldl_cons]
      exact ih _ (sampleAliasMember_error st a hst)
  rcases key l ({ Type_ := "", Body := none }, none) (Or.inl rfl) with
    h0 | ⟨k, ty, g, f, hk⟩
  · unfold unmarshalSampleAlias at h
    rw [h0] at h
    cases h
  · unfold unmarshalSampleAlias at h
    rw [hk] at h
    exact ⟨k, ty, g, f, (Option.some.inj h).symm⟩

/-- The outcomes of the method: an error met before the receiver is assigned
(the receiver is kept), or the outcome of `unmarshalBody` on the decoded type,
with the decoded type in the receiver. -/
theorem UnmarshalJSON_cases (d : String) (doc : Scan) :
    (∃ e, (∀ s0, Sample.UnmarshalJSON s0 d doc = (s0, some e)) ∧
      ((∃ msg, e = .SyntaxError msg) ∨ (∃ k ty g f, e = .UnmarshalTypeError k ty g f) ∨
        e = .noBody d)) ∨
    (∃ t raw, ∀ s0, Sample.UnmarshalJSON s0 d doc =
        (match unmarshalBody t raw with
        | (_, some err) => ({ Type_ := t, Body := none }, some err)
        | (sampleBody, none) => ({ Type_ := t, Body := sampleBody }, none))) := by
  cases doc with
  | invalid msg =>
    exact Or.inl ⟨_, fun s0 => by simp [Sample.UnmarshalJSON, unmarshalRawMap], Or.inl ⟨msg, rfl⟩⟩
  | value v =>
    cases v with
    | null =>
      exact Or.inl ⟨_, fun s0 => by simp [Sample.UnmarshalJSON, unmarshalRawMap, RawMap.get],
        Or.inr (Or.inr rfl)⟩
    | bool b =>
      exact Or.inl ⟨.UnmarshalTypeError "bool" "map[string]json.RawMessage" "" "",
        fun s0 => by simp [Sample.UnmarshalJSON, unmarshalRawMap, JSON.kind],
        Or.inr (Or.inl ⟨_, _, _, _, rfl⟩)⟩
    | number lit =>
      exact Or.inl ⟨.UnmarshalTypeError "number" "map[string]json.RawMessage" "" "",
        fun s0 => by simp [Sample.UnmarshalJSON, unmarshalRawMap, JSON.kind],
        Or.inr (Or.inl ⟨_, _, _, _, rfl⟩)⟩
    | string x =>
      exact Or.inl ⟨.UnmarshalTypeError "string" "map[string]json.RawMessage" "" "",
        fun s0 => by simp [Sample.UnmarshalJSON, unmarshalRawMap, JSON.kind],
        Or.inr (Or.inl ⟨_, _, _, _, rfl⟩)⟩
    | array items =>
      exact Or.inl ⟨.UnmarshalTypeError "array" "map[string]json.RawMessage" "" "",
        fun s0 => by simp [Sample.UnmarshalJSON, unmarshalRawMap, JSON.kind],
        Or.inr (Or.inl ⟨_, _, _, _, rfl⟩)⟩
    | object members =>
      cases hget : (objectMap members).get "body" with
      | none =>
        exact Or.inl ⟨_, fun s0 => by simp [Sample.UnmarshalJSON, unmarshalRawMap, hget],
          Or.inr (Or.inr rfl)⟩
      | some rawBody =>
        cases hal : unmarshalSampleAlias (marshalRawMap ((objectMap members).delete "body")) with
        | mk newS oe =>
          cases oe with
          | some e =>
            refine Or.inl ⟨e, fun s0 => by simp [Sample.UnmarshalJSON, unmarshalRawMap, hget, hal],
              Or.inr (Or.inl ?_)⟩
            exact unmarshalSampleAlias_error _ e (by rw [hal])
          | none =>
            refine Or.inr ⟨newS.Type_, rawBody, fun s0 => ?_⟩
            have hb : newS.Body = none := by
              have := unmarshalSampleAlias_body (marshalRawMap ((objectMap members).delete "body"))
              rw [hal] at this
              exact this
            simp only [Sample.UnmarshalJSON, unmarshalRawMap, hget, hal]
            cases newS with
            | mk t b =>
              simp only at hb
              subst hb
              split <;> simp_all

/-- With a "body" member and the other members decoding without error to a type
outside the labels, the call leaves that type with Body nil and returns the
invalid-type error for it, whatever the "body" is. -/
theorem UnmarshalJSON_invalid_of_decodedType (s : Sample) (d : String)
    (members : List (String × JSON)) (x : String)
    (hbody : ∃ p ∈ members, p.1 = "body")
    (hdec : decodedType members = some x)
    (hx : x ≠ "one" ∧ x ≠ "two" ∧ x ≠ "three") :
    Sample.UnmarshalJSON s d (.value (.object members))
      = ({ Type_ := x, Body := none }, some (.invalidType x)) := by
  obtain ⟨rawBody, hraw⟩ := Option.isSome_iff_exists.1 (objectMap_get_isSome members "body" hbody)
  unfold decodedType at hdec
  simp only [Sample.UnmarshalJSON, unmarshalRawMap, hraw]
  split at hdec
  · rename_i newS hnewS
    simp only [Option.some.injEq] at hdec
    have hb : newS.Body = none := by
      have := unmarshalSampleAlias_body (marshalRawMap ((objectMap members).delete "body"))
      rw [hnewS] at this
      exact this
    cases newS with
    | mk t b =>
      simp only at hb hdec
      subst hb
      subst hdec
      simp only [hnewS, unmarshalBody, SampleType1, SampleType2, SampleType3, hx.1, hx.2.1,
        hx.2.2, if_false]
  · cases hdec

/-- On an envelope whose "body" is a bare string, number, boolean or array the
call returns the library type error for the payload struct of a valid type. -/
theorem unmarshalValueStruct_not_object (g : String) (body : JSON)
    (hb : body.kind ∈ ["string", "number", "bool", "array"]) :
    unmarshalValueStruct g body
      = ("", some (.UnmarshalTypeError body.kind ("main." ++ g) "" "")) := by
  cases body <;> simp [JSON.kind] at hb <;> simp [unmarshalValueStruct, JSON.kind]

theorem foldl_set_get_keep (l : List (String × JSON)) (k : String)
    (h : ∀ p ∈ l, p.1 ≠ k) (acc : RawMap) :
    (l.foldl (fun m p => m.set p.1 p.2) acc).get k = acc.get k := by
  induction l generalizing acc with
  | nil => rfl
  | cons a l ih =>
    simp only [List.foldl_cons]
    rw [ih (fun p hp => h p (List.mem_cons_of_mem _ hp)),
      RawMap.get_set_ne _ _ _ _ (h a (List.mem_cons_self _ _))]

/-- The map of an object holds, under a key, the value of the last member of that
name. -/
theorem objectMap_get_last (l1 l2 : List (String × JSON)) (k : String) (v : JSON)
    (h : ∀ p ∈ l2, p.1 ≠ k) : (objectMap (l1 ++ (k, v) :: l2)).get k = some v := by
  unfold objectMap
  rw [List.foldl_append, List.foldl_cons, foldl_set_get_keep l2 k h, RawMap.get_set_self]

theorem RawMap.mem_of_get (m : RawMap) (k : String) (v : JSON) (h : m.get k = some v) :
    (k, v) ∈ m := by
  induction m with
  | nil => simp [RawMap.get] at h
  | cons a m ih =>
    by_cases hak : a.1 = k
    · simp only [RawMap.get, hak, if_true, Option.some.injEq] at h
      rw [← hak, ← h]
      exact List.mem_cons_self _ _
    · simp only [RawMap.get, hak, if_false] at h
      exact List.mem_cons_of_mem _ (ih h)

theorem mem_foldl_set (l : List (String × JSON)) (acc : RawMap) (p : String × JSON)
    (h : p ∈ l.foldl (fun m q => m.set q.1 q.2) acc) : p ∈ acc ∨ p ∈ l := by
  induction l generalizing acc with
  | nil => exact Or.inl h
  | cons a l ih =>
    simp only [List.foldl_cons] at h
    rcases ih _ h with h1 | h1
    · simp only [RawMap.set, List.mem_append, List.mem_filter, List.mem_singleton] at h1
      rcases h1 with ⟨h1, _⟩ | h1
      · exact Or.inl h1
      · right
        rw [h1]
        exact List.mem_cons_self _ _
    · exact Or.inr (List.mem_cons_of_mem _ h1)

/-- Every entry of the map of an object is a member of the object. -/
theorem mem_objectMap (members : List (String × JSON)) (p : String × JSON)
    (h : p ∈ objectMap members) : p ∈ members := by
  rcases mem_foldl_set members [] p h with h1 | h1
  · cases h1
  · exact h1

/-- The decode into `sampleAlias` of members that are all either the one member
`("type", string t)` or match neither field: `Type` is t once that member is
met, nothing else changes, in whatever order the members come. -/
theorem foldl_sampleAliasMember_only (t : String) (l : List (String × JSON))
    (h : ∀ p ∈ l, p = ("type", JSON.string t) ∨
      (matchesField p.1 "type" = false ∧ matchesField p.1 "body" = false))
    (st : Sample × Option DecodeError) :
    (("type", JSON.string t) ∈ l →
      l.foldl sampleAliasMember st = ({ st.1 with Type_ := t }, st.2)) ∧
    (l.foldl sampleAliasMember st = st ∨
      l.foldl sampleAliasMember st = ({ st.1 with Type_ := t }, st.2)) := by
  induction l generalizing st with
  | nil => exact ⟨fun hm => absurd hm (List.not_mem_nil _), Or.inl rfl⟩
  | cons a l ih =>
    have hl : ∀ p ∈ l, p = ("type", JSON.string t) ∨
        (matchesField p.1 "type" = false ∧ matchesField p.1 "body" = false) :=
      fun p hp => h p (List.mem_cons_of_mem _ hp)
    simp only [List.foldl_cons]
    rcases h a (List.mem_cons_self _ _) with ha | ha
    · have hstep : sampleAliasMember st a = ({ st.1 with Type_ := t }, st.2) := by
        subst ha
        have hm : matchesField "type" "type" = true := by decide
        simp [sampleAliasMember, hm]
      rw [hstep]
      have hsame : ∀ r : Sample × Option DecodeError,
          r = ({ st.1 with Type_ := t }, st.2) ∨
            r = ({ ({ st.1 with Type_ := t } : Sample) with Type_ := t }, st.2) →
          r = ({ st.1 with Type_ := t }, st.2) := by
        intro r hr
        rcases hr with hr | hr <;> exact hr
      have := (ih hl ({ st.1 with Type_ := t }, st.2)).2
      exact ⟨fun _ => hsame _ this, Or.inr (hsame _ this)⟩
    · have hstep : sampleAliasMember st a = st := by
        simp [sampleAliasMember, ha.1, ha.2]
      rw [hstep]
      refine ⟨fun hm => ?_, (ih hl st).2⟩
      rcases List.mem_cons.1 hm with hm | hm
      · rw [← hm] at ha
        have hm2 : matchesField "type" "type" = true := by decide
        simp [hm2] at ha
      · exact (ih hl st).1 hm

/-- Members that match neither "type" nor "body", put before, between and after
the two members of an envelope, do not change the outcome. -/
theorem UnmarshalJSON_extras (s : Sample) (d t : String) (body : JSON)
    (e1 e2 e3 : List (String × JSON))
    (h : ∀ p ∈ e1 ++ e2 ++ e3,
      matchesField p.1 "type" = false ∧ matchesField p.1 "body" = false) :
    Sample.UnmarshalJSON s d
        (.value (.object (e1 ++ ("type", .string t) :: (e2 ++ ("body", body) :: e3))))
      = Sample.UnmarshalJSON s d (.value (envelope t body)) := by
  have hne : ∀ p ∈ e1 ++ e2 ++ e3, p.1 ≠ "type" ∧ p.1 ≠ "body" := by
    intro p hp
    have hp2 := h p hp
    constructor
    · intro heq
      rw [heq] at hp2
      have hm : matchesField "type" "type" = true := by decide
      simp [hm] at hp2
    · intro heq
      rw [heq] at hp2
      have hm : matchesField "body" "body" = true := by decide
      simp [hm] at hp2
  have hbody : (objectMap (e1 ++ ("type", .string t) :: (e2 ++ ("body", body) :: e3))).get "body"
      = some body := by
    have : e1 ++ ("type", JSON.string t) :: (e2 ++ ("body", body) :: e3)
        = (e1 ++ ("type", JSON.string t) :: e2) ++ ("body", body) :: e3 := by simp
    rw [this]
    exact objectMap_get_last _ e3 "body" body
      (fun p hp => (hne p (by simp [hp])).2)
  have htype : (objectMap (e1 ++ ("type", .string t) :: (e2 ++ ("body", body) :: e3))).get "type"
      = some (.string t) := by
    apply objectMap_get_last e1 _ "type" (.string t)
    intro p hp
    rcases List.mem_append.1 hp with hp | hp
    · exact (hne p (by simp [hp])).1
    · rcases List.mem_cons.1 hp with hp | hp
      · rw [hp]
        show "body" ≠ "type"
        decide
      · exact (hne p (by simp [hp])).1
  have hall : ∀ p ∈ marshalRawMap
        ((objectMap (e1 ++ ("type", .string t) :: (e2 ++ ("body", body) :: e3))).delete "body"),
      p = ("type", JSON.string t) ∨
        (matchesField p.1 "type" = false ∧ matchesField p.1 "body" = false) := by
    intro p hp
    have hp1 := (List.perm_insertionSort _ _).mem_iff.1 hp
    simp only [RawMap.delete, List.mem_filter] at hp1
    have hp2 := mem_objectMap _ p hp1.1
    have hpb : p.1 ≠ "body" := by simpa using hp1.2
    rcases List.mem_append.1 hp2 with hp3 | hp3
    · exact Or.inr (h p (by simp [hp3]))
    · rcases List.mem_cons.1 hp3 with hp3 | hp3
      · exact Or.inl hp3
      · rcases List.mem_append.1 hp3 with hp3 | hp3
        · exact Or.inr (h p (by simp [hp3]))
        · rcases List.mem_cons.1 hp3 with hp3 | hp3
          · rw [hp3] at hpb
            exact absurd rfl hpb
          · exact Or.inr (h p (by simp [hp3]))
  have hmem : ("type", JSON.string t) ∈ marshalRawMap
      ((objectMap (e1 ++ ("type", .string t) :: (e2 ++ ("body", body) :: e3))).delete "body") := by
    apply (List.perm_insertionSort _ _).mem_iff.2
    simp only [RawMap.delete, List.mem_filter]
    exact ⟨RawMap.mem_of_get _ _ _ htype, by decide⟩
  have halias := (foldl_sampleAliasMember_only t _ hall
    ({ Type_ := "", Body := none }, none)).1 hmem
  rw [UnmarshalJSON_envelope]
  simp only [Sample.UnmarshalJSON, unmarshalRawMap, hbody, unmarshalSampleAlias, halias]

/-! ### The decode of a `SampleGroup` -/

/-- A well-formed envelope decodes, on any receiver, to its type and a payload
holding its value. -/
theorem UnmarshalJSON_wellformed (s : Sample) (d t v : String)
    (ht : t = "one" ∨ t = "two" ∨ t = "three") :
    ∃ b, Sample.UnmarshalJSON s d (.value (envelope t (.object [("value", .string v)])))
        = ({ Type_ := t, Body := some b }, none) ∧ b.GetValue = v := by
  rcases ht with rfl | rfl | rfl
  · exact ⟨.ofSampleBody1 ⟨v⟩, rfl, rfl⟩
  · exact ⟨.ofSampleBody2 ⟨v⟩, rfl, rfl⟩
  · exact ⟨.ofSampleBody3 ⟨v⟩, rfl, rfl⟩

theorem saveError_isSome (saved : Option DecodeError) (e : DecodeError) :
    ∃ e', saveError saved e = some e' := by
  cases saved with
  | none => exact ⟨e, rfl⟩
  | some e0 => exact ⟨e0, rfl⟩

theorem samplesEntry_keeps_error (spell : JSON → String) (st : SampleMap × Option DecodeError)
    (p : String × JSON) (e0 : DecodeError) (h : st.2 = some e0) :
    (samplesEntry spell st p).2 = some e0 := by
  unfold samplesEntry
  split <;> simp [h, saveError]

theorem unmarshalSamples_keeps_error (spell : JSON → String) (entries : List (String × JSON))
    (st : SampleMap × Option DecodeError) (e0 : DecodeError) (h : st.2 = some e0) :
    (unmarshalSamples spell entries st).2 = some e0 := by
  unfold unmarshalSamples
  induction entries generalizing st with
  | nil => exact h
  | cons a entries ih =>
    simp only [List.foldl_cons]
    exact ih _ (samplesEntry_keeps_error spell st a e0 h)

/-- When every entry decodes, the entries are stored one after the other and the
saved error is as before. -/
theorem unmarshalSamples_ok (spell : JSON → String) (entries : List (String × JSON))
    (h : ∀ p ∈ entries, (decodeEntry spell p.2).2 = none) (st : SampleMap × Option DecodeError) :
    unmarshalSamples spell entries st
      = (entries.foldl (fun m p => m.set p.1 (decodeEntry spell p.2).1) st.1, st.2) := by
  unfold unmarshalSamples
  induction entries generalizing st with
  | nil => rfl
  | cons a entries ih =>
    have ha := h a (List.mem_cons_self _ _)
    cases hd : decodeEntry spell a.2 with
    | mk elem oe =>
      rw [hd] at ha
      simp only at ha
      subst ha
      simp only [List.foldl_cons]
      rw [ih (fun p hp => h p (List.mem_cons_of_mem _ hp))]
      simp [samplesEntry, hd]

/-- With no error saved before, the error kept over the entries is that of the
first entry that fails. -/
theorem unmarshalSamples_first_fail (spell : JSON → String)
    (good rest : List (String × JSON)) (key : String) (bad : JSON) (e : DecodeError)
    (hgood : ∀ q ∈ good, (decodeEntry spell q.2).2 = none)
    (hbad : (decodeEntry spell bad).2 = some e) (m : SampleMap) :
    (unmarshalSamples spell (good ++ (key, bad) :: rest) (m, none)).2 = some e := by
  have hsplit : unmarshalSamples spell (good ++ (key, bad) :: rest) (m, none)
      = unmarshalSamples spell rest
          (samplesEntry spell (unmarshalSamples spell good (m, none)) (key, bad)) := by
    simp [unmarshalSamples, List.foldl_append]
  rw [hsplit, unmarshalSamples_ok spell good hgood]
  apply unmarshalSamples_keeps_error
  cases hd : decodeEntry spell bad with
  | mk elem oe =>
    rw [hd] at hbad
    simp only at hbad
    subst hbad
    simp [samplesEntry, hd, saveError]

theorem groupMember_keeps_error (spell : JSON → String) (st : SampleGroup × Option DecodeError)
    (p : String × JSON) (e0 : DecodeError) (h : st.2 = some e0) :
    (groupMember spell st p).2 = some e0 := by
  unfold groupMember
  split
  · split <;> simp [h, saveError]
  · split
    · split
      · exact unmarshalSamples_keeps_error spell _ _ e0 h
      · exact h
      · simp [h, saveError]
    · exact h

theorem unmarshalGroupMembers_keeps_error (spell : JSON → String)
    (members : List (String × JSON)) (st : SampleGroup × Option DecodeError) (e0 : DecodeError)
    (h : st.2 = some e0) : (unmarshalGroupMembers spell members st).2 = some e0 := by
  unfold unmarshalGroupMembers
  induction members generalizing st with
  | nil => exact h
  | cons a members ih =>
    simp only [List.foldl_cons]
    exact ih _ (groupMember_keeps_error spell st a e0 h)

theorem SampleMap.foldl_set_fresh (l : List (String × Sample)) (m : SampleMap)
    (hl : (l.map (fun p => p.1)).Nodup) (hm : ∀ p ∈ m, ∀ q ∈ l, p.1 ≠ q.1) :
    l.foldl (fun m q => m.set q.1 q.2) m = m ++ l := by
  induction l generalizing m with
  | nil => simp
  | cons a l ih =>
    simp only [List.map_cons, List.nodup_cons, List.mem_map, not_exists, not_and] at hl
    simp only [List.foldl_cons]
    have hset : m.set a.1 a.2 = m ++ [a] := by
      unfold SampleMap.set
      rw [List.filter_eq_self.2]
      intro p hp
      simpa using hm p hp a (List.mem_cons_self _ _)
    rw [hset, ih _ hl.2]
    · simp
    · intro p hp q hq
      rcases List.mem_append.1 hp with hp | hp
      · exact hm p hp q (List.mem_cons_of_mem _ hq)
      · rw [List.mem_singleton.1 hp]
        exact fun heq => hl.1 q hq heq.symm

theorem SampleMap.get_of_mem (m : SampleMap) (hm : (m.map (fun p => p.1)).Nodup)
    (k : String) (e : Sample) (h : (k, e) ∈ m) : m.get k = some e := by
  induction m with
  | nil => cases h
  | cons a m ih =>
    simp only [List.map_cons, List.nodup_cons, List.mem_map, not_exists, not_and] at hm
    rcases List.mem_cons.1 h with h | h
    · rw [← h]
      simp [SampleMap.get]
    · have hne : a.1 ≠ k := fun heq => hm.1 (k, e) h heq.symm
      simp only [SampleMap.get, hne, if_false]
      exact ih hm.2 h

theorem matchesField_samples_not_id (k : String) (h : matchesField k "samples" = true) :
    matchesField k "id" = false := by
  unfold matchesField at h ⊢
  rw [beq_iff_eq] at h
  rw [h]
  decide

/-- The decode of a collection whose "samples" member holds a failing entry after
entries that decode: the error kept is the one saved before that member, or the
error of that entry when none was. -/
theorem unmarshalGroupMembers_first_fail (spell : JSON → String)
    (pre post : List (String × JSON)) (k : String) (good rest : List (String × JSON))
    (key : String) (bad : JSON) (e : DecodeError)
    (hk : matchesField k "samples" = true)
    (hgood : ∀ q ∈ good, (decodeEntry spell q.2).2 = none)
    (hbad : (decodeEntry spell bad).2 = some e) (st : SampleGroup × Option DecodeError) :
    (unmarshalGroupMembers spell (pre ++ (k, .object (good ++ (key, bad) :: rest)) :: post) st).2
      = match (unmarshalGroupMembers spell pre st).2 with
        | some e0 => some e0
        | none => some e := by
  have hsplit : unmarshalGroupMembers spell
        (pre ++ (k, .object (good ++ (key, bad) :: rest)) :: post) st
      = unmarshalGroupMembers spell post
          (groupMember spell (unmarshalGroupMembers spell pre st)
            (k, .object (good ++ (key, bad) :: rest))) := by
    simp [unmarshalGroupMembers, List.foldl_append]
  rw [hsplit]
  have hid := matchesField_samples_not_id k hk
  cases hpre : unmarshalGroupMembers spell pre st with
  | mk g saved =>
    cases saved with
    | some e0 =>
      exact unmarshalGroupMembers_keeps_error spell post _ e0
        (groupMember_keeps_error spell _ _ e0 rfl)
    | none =>
      apply unmarshalGroupMembers_keeps_error
      simp only [groupMember, hid, hk, if_true]
      exact unmarshalSamples_first_fail spell good rest key bad e hgood hbad g.Samples

/-- The decode into a `sampleAlias` needs one level and enters the method zero
times; on an object it is `unmarshalSampleAlias`. -/
theorem runCall_sampleAlias (encode : List (String × JSON) → String) (depth : Nat)
    (data : String) (members : List (String × JSON)) :
    runCall encode (depth + 1) (.jsonUnmarshal .sampleAlias) { Type_ := "", Body := none } data
        (.value (.object members))
      = some (unmarshalSampleAlias members, 0) := by
  simp [runCall, Dest.hasUnmarshalJSON, unmarshalFields, unmarshalSampleAlias]

/-- The method run with its nested calls: two levels suffice, the outcome is that
of `Sample.UnmarshalJSON`, and the method is entered once. -/
theorem runCall_UnmarshalJSON (encode : List (String × JSON) → String) (depth : Nat)
    (s : Sample) (d : String) (doc : Scan) :
    runCall encode (depth + 2) .UnmarshalJSON s d doc
      = some (Sample.UnmarshalJSON s d doc, 1) := by
  rw [runCall]
  unfold Sample.UnmarshalJSON
  cases hm : unmarshalRawMap doc with
  | mk m oe =>
    cases oe with
    | some err => rfl
    | none =>
      simp only
      cases hget : m.get "body" with
      | none => rfl
      | some rawBody =>
        simp only [runCall_sampleAlias]
        cases hal : unmarshalSampleAlias (marshalRawMap (m.delete "body")) with
        | mk newS oe2 =>
          cases oe2 with
          | some err => rfl
          | none =>
            simp only
            cases hub : unmarshalBody newS.Type_ rawBody with
            | mk ob oe3 =>
              cases oe3 with
              | some err => rfl
              | none => rfl

/-! ## Claims -/

/-- C1: for every discriminant t among "one", "two", "three" and every string v,
decoding the object with "type" t and "body" an object with "value" v returns no
error and leaves a Sample whose Type is t and whose Body returns exactly v from
GetValue, whatever the receiver held before. -/
theorem UnmarshalJSON_roundtrip (s : Sample) (d t v : String)
    (ht : t = "one" ∨ t = "two" ∨ t = "three") :
    ∃ b, Sample.UnmarshalJSON s d (.value (envelope t (.object [("value", .string v)])))
        = ({ Type_ := t, Body := some b }, none) ∧ b.GetValue = v := by
  rcases ht with rfl | rfl | rfl
  · exact ⟨.ofSampleBody1 ⟨v⟩, rfl, rfl⟩
  · exact ⟨.ofSampleBody2 ⟨v⟩, rfl, rfl⟩
  · exact ⟨.ofSampleBody3 ⟨v⟩, rfl, rfl⟩

theorem UnmarshalJSON_roundtrip_witness :
    ("two" = "one" ∨ "two" = "two" ∨ "two" = "three") ∧
    ∃ b, Sample.UnmarshalJSON { Type_ := "", Body := none }
        "\x7b\"type\":\"two\",\"body\":\x7b\"value\":\"this is a value 2\"\x7d\x7d"
        (.value (envelope "two" (.object [("value", .string "this is a value 2")])))
        = ({ Type_ := "two", Body := some b }, none) ∧ b.GetValue = "this is a value 2" :=
  ⟨by decide, UnmarshalJSON_roundtrip _ _ "two" "this is a value 2" (by decide)⟩

/-- C2: for every JSON object none of whose members is named "body", the call
returns the "no body" error quoting the input bytes and leaves the receiver as it
was, whatever the other members are (a valid "type", none, an invalid one or one
that is not a string): the check comes before any decoding of the discriminant. -/
theorem UnmarshalJSON_no_body (s : Sample) (d : String) (members : List (String × JSON))
    (h : ∀ p ∈ members, p.1 ≠ "body") :
    Sample.UnmarshalJSON s d (.value (.object members)) = (s, some (.noBody d)) := by
  simp [Sample.UnmarshalJSON, unmarshalRawMap, objectMap_get_none members "body" h]

/-- The four situations of a missing body: "type" not a string (and a member "Body" in another
letter case), a valid "type", no member at all, an invalid "type". -/
theorem UnmarshalJSON_no_body_witness :
    (∀ p ∈ [("type", JSON.number "1"), ("Body", JSON.object [])], p.1 ≠ "body") ∧
    Sample.UnmarshalJSON { Type_ := "one", Body := none }
        "\x7b\"type\":1,\"Body\":\x7b\x7d\x7d"
        (.value (.object [("type", .number "1"), ("Body", .object [])]))
      = ({ Type_ := "one", Body := none },
          some (.noBody "\x7b\"type\":1,\"Body\":\x7b\x7d\x7d")) ∧
    Sample.UnmarshalJSON { Type_ := "", Body := none } "\x7b\"type\":\"one\"\x7d"
        (.value (.object [("type", .string "one")]))
      = ({ Type_ := "", Body := none }, some (.noBody "\x7b\"type\":\"one\"\x7d")) ∧
    Sample.UnmarshalJSON { Type_ := "", Body := none } "\x7b\x7d" (.value (.object []))
      = ({ Type_ := "", Body := none }, some (.noBody "\x7b\x7d")) ∧
    Sample.UnmarshalJSON { Type_ := "", Body := none } "\x7b\"type\":\"four\"\x7d"
        (.value (.object [("type", .string "four")]))
      = ({ Type_ := "", Body := none }, some (.noBody "\x7b\"type\":\"four\"\x7d")) :=
  ⟨by decide, UnmarshalJSON_no_body _ _ _ (by decide), UnmarshalJSON_no_body _ _ _ (by decide),
    UnmarshalJSON_no_body _ _ _ (by decide), UnmarshalJSON_no_body _ _ _ (by decide)⟩

/-- C3: for every JSON object with a member named "body" whose other members
decode to a Type x outside "one", "two", "three", the call returns the
invalid-type error for x; its message is "invalid type " followed by x, so it
contains x. -/
theorem UnmarshalJSON_invalid_type (s : Sample) (d : String)
    (members : List (String × JSON)) (x : String)
    (hbody : ∃ p ∈ members, p.1 = "body")
    (hdec : decodedType members = some x)
    (hx : x ≠ "one" ∧ x ≠ "two" ∧ x ≠ "three") :
    (Sample.UnmarshalJSON s d (.value (.object members))).2 = some (.invalidType x) ∧
    (DecodeError.invalidType x).Error = "invalid type " ++ x ∧
    x.data <:+: (DecodeError.invalidType x).Error.data := by
  refine ⟨?_, rfl, ⟨"invalid type ".data, [], by simp [DecodeError.Error]⟩⟩
  obtain ⟨rawBody, hraw⟩ := Option.isSome_iff_exists.1 (objectMap_get_isSome members "body" hbody)
  unfold decodedType at hdec
  simp only [Sample.UnmarshalJSON, unmarshalRawMap, hraw]
  split at hdec
  · rename_i newS hnewS
    simp only [Option.some.injEq] at hdec
    simp only [hnewS, hdec, unmarshalBody, SampleType1, SampleType2, SampleType3, hx.1, hx.2.1,
      hx.2.2, if_false]
  · cases hdec

/-- Three invalid types: "type" "four", the other letter case "One", and no
"type" member (the empty string). -/
theorem UnmarshalJSON_invalid_type_witness :
    ((∃ p ∈ [("type", JSON.string "four"), ("body", JSON.object [])], p.1 = "body") ∧
      decodedType [("type", JSON.string "four"), ("body", JSON.object [])] = some "four" ∧
      ("four" ≠ "one" ∧ "four" ≠ "two" ∧ "four" ≠ "three")) ∧
    ((Sample.UnmarshalJSON { Type_ := "", Body := none }
        "\x7b\"type\":\"four\",\"body\":\x7b\x7d\x7d"
        (.value (.object [("type", .string "four"), ("body", .object [])]))).2
        = some (.invalidType "four") ∧
      (DecodeError.invalidType "four").Error = "invalid type " ++ "four" ∧
      "four".data <:+: (DecodeError.invalidType "four").Error.data) ∧
    (Sample.UnmarshalJSON { Type_ := "", Body := none }
        "\x7b\"type\":\"One\",\"body\":\x7b\x7d\x7d"
        (.value (.object [("type", .string "One"), ("body", .object [])]))).2
        = some (.invalidType "One") ∧
    (Sample.UnmarshalJSON { Type_ := "", Body := none } "\x7b\"body\":\x7b\x7d\x7d"
        (.value (.object [("body", .object [])]))).2 = some (.invalidType "") :=
  ⟨⟨⟨("body", JSON.object []), by simp, rfl⟩, by decide, by decide⟩,
    UnmarshalJSON_invalid_type _ _ _ "four" ⟨("body", JSON.object []), by simp, rfl⟩
      (by decide) (by decide),
    (UnmarshalJSON_invalid_type _ _ _ "One" ⟨("body", JSON.object []), by simp, rfl⟩
      (by decide) (by decide)).1,
    (UnmarshalJSON_invalid_type _ _ _ "" ⟨("body", JSON.object []), by simp, rfl⟩
      (by decide) (by decide)).1⟩

/-- C4, as the claim states it, fails: with "type" "one" and "body" the empty
object the call returns no error and the Body holds the empty string. -/
theorem UnmarshalJSON_body_without_value_counterexample :
    Sample.UnmarshalJSON { Type_ := "", Body := none }
        "\x7b\"type\":\"one\",\"body\":\x7b\x7d\x7d"
        (.value (envelope "one" (.object [])))
      = ({ Type_ := "one", Body := some (.ofSampleBody1 { Value := "" }) }, none) := by
  decide

/-- C4, amended: for every discriminant t among "one", "two", "three" and every
"body" object none of whose members matches the field "value" (exactly or up to
letter case), the call returns no error and leaves Type t and a Body whose
GetValue is the empty string. -/
theorem UnmarshalJSON_body_without_value (s : Sample) (d t : String)
    (fields : List (String × JSON))
    (ht : t = "one" ∨ t = "two" ∨ t = "three")
    (h : ∀ p ∈ fields, matchesField p.1 "value" = false) :
    ∃ b, Sample.UnmarshalJSON s d (.value (envelope t (.object fields)))
        = ({ Type_ := t, Body := some b }, none) ∧ b.GetValue = "" := by
  rw [UnmarshalJSON_envelope]
  rcases ht with rfl | rfl | rfl
  · refine ⟨.ofSampleBody1 ⟨""⟩, ?_, rfl⟩
    simp [unmarshalBody, unmarshalValueStruct, foldl_valueMember_skip _ fields h, SampleType1]
  · refine ⟨.ofSampleBody2 ⟨""⟩, ?_, rfl⟩
    simp [unmarshalBody, unmarshalValueStruct, foldl_valueMember_skip _ fields h, SampleType1,
      SampleType2]
  · refine ⟨.ofSampleBody3 ⟨""⟩, ?_, rfl⟩
    simp [unmarshalBody, unmarshalValueStruct, foldl_valueMember_skip _ fields h, SampleType1,
      SampleType2, SampleType3]

theorem UnmarshalJSON_body_without_value_witness :
    (("two" = "one" ∨ "two" = "two" ∨ "two" = "three") ∧
      ∀ p ∈ [("id", JSON.number "7")], matchesField p.1 "value" = false) ∧
    ∃ b, Sample.UnmarshalJSON { Type_ := "", Body := none }
        "\x7b\"type\":\"two\",\"body\":\x7b\"id\":7\x7d\x7d"
        (.value (envelope "two" (.object [("id", .number "7")])))
        = ({ Type_ := "two", Body := some b }, none) ∧ b.GetValue = "" :=
  ⟨⟨by decide, by decide⟩, UnmarshalJSON_body_without_value _ _ "two" _ (by decide) (by decide)⟩

/-- C5, as the claim states it, fails for null: with "type" "one" and "body" an
object whose "value" is null the call returns no error and the Body holds the
empty string. -/
theorem UnmarshalJSON_value_not_string_counterexample :
    Sample.UnmarshalJSON { Type_ := "", Body := none }
        "\x7b\"type\":\"one\",\"body\":\x7b\"value\":null\x7d\x7d"
        (.value (envelope "one" (.object [("value", .null)])))
      = ({ Type_ := "one", Body := some (.ofSampleBody1 { Value := "" }) }, none) := by
  decide

/-- C5, amended: for every discriminant t among "one", "two", "three" and every
"body" object with a member "value" that is a number, a boolean, an array or an
object, the call returns the library type error for the string field "value" of
the payload struct that t selects (SampleBody1 for "one", SampleBody2 for "two",
SampleBody3 for "three"), naming a kind among number, bool, array and object, and
leaves Type t with Body nil. -/
theorem UnmarshalJSON_value_not_string (s : Sample) (d t : String)
    (fields : List (String × JSON)) (v : JSON)
    (ht : t = "one" ∨ t = "two" ∨ t = "three")
    (hmem : ("value", v) ∈ fields)
    (hv : v.kind ∈ ["number", "bool", "array", "object"]) :
    ∃ k g, ((t = "one" ∧ g = "SampleBody1") ∨ (t = "two" ∧ g = "SampleBody2") ∨
        (t = "three" ∧ g = "SampleBody3")) ∧
      k ∈ ["number", "bool", "array", "object"] ∧
      Sample.UnmarshalJSON s d (.value (envelope t (.object fields)))
        = ({ Type_ := t, Body := none }, some (.UnmarshalTypeError k "string" g "value")) := by
  rw [UnmarshalJSON_envelope]
  rcases ht with rfl | rfl | rfl
  · obtain ⟨k, hkin, hk⟩ :=
      foldl_valueMember_error "SampleBody1" fields v hmem hv ("", none) (Or.inl rfl)
    exact ⟨k, "SampleBody1", Or.inl ⟨rfl, rfl⟩, hkin, by
      simp [unmarshalBody, unmarshalValueStruct, hk, SampleType1]⟩
  · obtain ⟨k, hkin, hk⟩ :=
      foldl_valueMember_error "SampleBody2" fields v hmem hv ("", none) (Or.inl rfl)
    exact ⟨k, "SampleBody2", Or.inr (Or.inl ⟨rfl, rfl⟩), hkin, by
      simp [unmarshalBody, unmarshalValueStruct, hk, SampleType1, SampleType2]⟩
  · obtain ⟨k, hkin, hk⟩ :=
      foldl_valueMember_error "SampleBody3" fields v hmem hv ("", none) (Or.inl rfl)
    exact ⟨k, "SampleBody3", Or.inr (Or.inr ⟨rfl, rfl⟩), hkin, by
      simp [unmarshalBody, unmarshalValueStruct, hk, SampleType1, SampleType2, SampleType3]⟩

theorem UnmarshalJSON_value_not_string_witness :
    (("three" = "one" ∨ "three" = "two" ∨ "three" = "three") ∧
      ("value", JSON.number "1") ∈ [("value", JSON.number "1")] ∧
      (JSON.number "1").kind ∈ ["number", "bool", "array", "object"]) ∧
    (∃ k g, (("three" = "one" ∧ g = "SampleBody1") ∨ ("three" = "two" ∧ g = "SampleBody2") ∨
        ("three" = "three" ∧ g = "SampleBody3")) ∧
      k ∈ ["number", "bool", "array", "object"] ∧
      Sample.UnmarshalJSON { Type_ := "", Body := none }
        "\x7b\"type\":\"three\",\"body\":\x7b\"value\":1\x7d\x7d"
        (.value (envelope "three" (.object [("value", .number "1")])))
        = ({ Type_ := "three", Body := none },
            some (.UnmarshalTypeError k "string" g "value"))) ∧
    Sample.UnmarshalJSON { Type_ := "", Body := none }
        "\x7b\"type\":\"three\",\"body\":\x7b\"value\":1\x7d\x7d"
        (.value (envelope "three" (.object [("value", .number "1")])))
      = ({ Type_ := "three", Body := none },
          some (.UnmarshalTypeError "number" "string" "SampleBody3" "value")) :=
  ⟨⟨by decide, by simp, by decide⟩,
    UnmarshalJSON_value_not_string _ _ "three" _ (.number "1") (by decide) (by simp) (by decide),
    by decide⟩

/-- C6: whenever the call returns no error, the Type left in the receiver is one
of "one", "two", "three", the Body is not nil, and the Body holds a SampleBody1
exactly when Type is "one", a SampleBody2 exactly when it is "two", a SampleBody3
exactly when it is "three". -/
theorem UnmarshalJSON_consistent (s : Sample) (d : String) (doc : Scan) (s' : Sample)
    (h : Sample.UnmarshalJSON s d doc = (s', none)) :
    (s'.Type_ = "one" ∨ s'.Type_ = "two" ∨ s'.Type_ = "three") ∧
    ∃ b, s'.Body = some b ∧
      ((∃ x, b = .ofSampleBody1 x) ↔ s'.Type_ = "one") ∧
      ((∃ x, b = .ofSampleBody2 x) ↔ s'.Type_ = "two") ∧
      ((∃ x, b = .ofSampleBody3 x) ↔ s'.Type_ = "three") := by
  rcases UnmarshalJSON_cases d doc with ⟨e, he, _⟩ | ⟨t, raw, ht⟩
  · rw [he s] at h
    simp at h
  · rw [ht s] at h
    cases hub : unmarshalBody t raw with
    | mk ob oe =>
      rw [hub] at h
      cases oe with
      | some e => simp at h
      | none =>
        simp only [Prod.mk.injEq, and_true] at h
        subst h
        rcases unmarshalBody_ok t raw ob hub with ⟨rfl, x, rfl⟩ | ⟨rfl, x, rfl⟩ | ⟨rfl, x, rfl⟩
        · exact ⟨Or.inl rfl, _, rfl, by simp, by simp, by simp⟩
        · exact ⟨Or.inr (Or.inl rfl), _, rfl, by simp, by simp, by simp⟩
        · exact ⟨Or.inr (Or.inr rfl), _, rfl, by simp, by simp, by simp⟩

theorem UnmarshalJSON_consistent_witness :
    Sample.UnmarshalJSON { Type_ := "", Body := none }
        "\x7b\"type\":\"three\",\"body\":\x7b\"value\":\"v\"\x7d\x7d"
        (.value (envelope "three" (.object [("value", .string "v")])))
      = ({ Type_ := "three", Body := some (.ofSampleBody3 { Value := "v" }) }, none) ∧
    (("three" = "one" ∨ "three" = "two" ∨ "three" = "three") ∧
      ∃ b, some (SampleBody.ofSampleBody3 { Value := "v" }) = some b ∧
        ((∃ x, b = .ofSampleBody1 x) ↔ "three" = "one") ∧
        ((∃ x, b = .ofSampleBody2 x) ↔ "three" = "two") ∧
        ((∃ x, b = .ofSampleBody3 x) ↔ "three" = "three")) :=
  ⟨by decide, UnmarshalJSON_consistent { Type_ := "", Body := none }
    "\x7b\"type\":\"three\",\"body\":\x7b\"value\":\"v\"\x7d\x7d"
    (.value (envelope "three" (.object [("value", .string "v")])))
    { Type_ := "three", Body := some (.ofSampleBody3 { Value := "v" }) } (by decide)⟩

/-- C7, as the claim states it, fails: on a receiver holding Type "one" and a
payload, the input with "type" "four" and an empty "body" object returns the
invalid-type error and leaves the receiver with Type "four" and Body nil, not as
it was before the call. -/
theorem UnmarshalJSON_receiver_counterexample :
    Sample.UnmarshalJSON { Type_ := "one", Body := some (.ofSampleBody1 { Value := "kept" }) }
        "\x7b\"type\":\"four\",\"body\":\x7b\x7d\x7d"
        (.value (envelope "four" (.object [])))
      = ({ Type_ := "four", Body := none }, some (.invalidType "four")) ∧
    ({ Type_ := "four", Body := none } : Sample)
      ≠ { Type_ := "one", Body := some (.ofSampleBody1 { Value := "kept" }) } := by
  decide

/-- C7, amended: for every input and every prior receiver, after the call either
no error was returned and the receiver holds a Type among "one", "two", "three"
and a Body that is not nil; or an error was returned and the receiver is exactly
as before the call; or the receiver holds the decoded Type with Body nil and the
error is the invalid-type error for that Type or a library type error met while
decoding the payload of a valid Type. -/
theorem UnmarshalJSON_receiver (s : Sample) (d : String) (doc : Scan) :
    ∃ s' err, Sample.UnmarshalJSON s d doc = (s', err) ∧
      ((err = none ∧ (s'.Type_ = "one" ∨ s'.Type_ = "two" ∨ s'.Type_ = "three") ∧
          s'.Body ≠ none) ∨
        (err ≠ none ∧ s' = s) ∨
        (s'.Body = none ∧
          ((err = some (.invalidType s'.Type_) ∧
              s'.Type_ ≠ "one" ∧ s'.Type_ ≠ "two" ∧ s'.Type_ ≠ "three") ∨
            ((∃ k ty g f, err = some (.UnmarshalTypeError k ty g f)) ∧
              (s'.Type_ = "one" ∨ s'.Type_ = "two" ∨ s'.Type_ = "three"))))) := by
  rcases UnmarshalJSON_cases d doc with ⟨e, he, _⟩ | ⟨t, raw, ht⟩
  · exact ⟨s, some e, he s, Or.inr (Or.inl ⟨by simp, rfl⟩)⟩
  · rw [ht s]
    cases hub : unmarshalBody t raw with
    | mk ob oe =>
      cases oe with
      | some e =>
        refine ⟨{ Type_ := t, Body := none }, some e, rfl, Or.inr (Or.inr ⟨rfl, ?_⟩)⟩
        rcases unmarshalBody_error t raw ob e hub with ⟨rfl, hne⟩ | ⟨⟨k, ty, g, f, rfl⟩, hin⟩
        · exact Or.inl ⟨rfl, hne⟩
        · exact Or.inr ⟨⟨k, ty, g, f, rfl⟩, hin⟩
      | none =>
        refine ⟨{ Type_ := t, Body := ob }, none, rfl, Or.inl ⟨rfl, ?_⟩⟩
        rcases unmarshalBody_ok t raw ob hub with ⟨rfl, x, rfl⟩ | ⟨rfl, x, rfl⟩ | ⟨rfl, x, rfl⟩
        · exact ⟨Or.inl rfl, by simp⟩
        · exact ⟨Or.inr (Or.inl rfl), by simp⟩
        · exact ⟨Or.inr (Or.inr rfl), by simp⟩

/-- C8, as the claim states it, fails for the literal null: the call returns the
"no body" error, not a malformed-input error. -/
theorem UnmarshalJSON_not_object_counterexample :
    Sample.UnmarshalJSON { Type_ := "", Body := none } "null" (.value .null)
      = ({ Type_ := "", Body := none }, some (.noBody "null")) := by
  decide

/-- C8, amended: for every input that is not valid JSON, or is a JSON string,
number, boolean or array, the call returns the library error of the first decode
(the scanner error, or the type error for the map of raw members) and leaves the
receiver as it was; it returns neither the "no body" nor the invalid-type
error. -/
theorem UnmarshalJSON_not_object (s : Sample) (d : String) (doc : Scan)
    (h : (∃ msg, doc = .invalid msg) ∨
      ∃ v, doc = .value v ∧ v.kind ∈ ["string", "number", "bool", "array"]) :
    ∃ e, Sample.UnmarshalJSON s d doc = (s, some e) ∧
      ((∃ msg, doc = .invalid msg ∧ e = .SyntaxError msg) ∨
        ∃ k, e = .UnmarshalTypeError k "map[string]json.RawMessage" "" "") := by
  rcases h with ⟨msg, rfl⟩ | ⟨v, rfl, hv⟩
  · exact ⟨.SyntaxError msg, by simp [Sample.UnmarshalJSON, unmarshalRawMap],
      Or.inl ⟨msg, rfl, rfl⟩⟩
  · refine ⟨.UnmarshalTypeError v.kind "map[string]json.RawMessage" "" "", ?_, Or.inr ⟨_, rfl⟩⟩
    cases v <;> simp [JSON.kind] at hv <;> simp [Sample.UnmarshalJSON, unmarshalRawMap]

/-- Inputs that are not objects, null apart: an array, a bare string, and text that is
not JSON. -/
theorem UnmarshalJSON_not_object_witness :
    ((∃ msg, Scan.value (.array []) = .invalid msg) ∨
      ∃ v, Scan.value (.array []) = .value v ∧
        v.kind ∈ ["string", "number", "bool", "array"]) ∧
    (∃ e, Sample.UnmarshalJSON { Type_ := "", Body := none } "[]" (.value (.array []))
        = ({ Type_ := "", Body := none }, some e) ∧
      ((∃ msg, Scan.value (.array []) = .invalid msg ∧ e = .SyntaxError msg) ∨
        ∃ k, e = .UnmarshalTypeError k "map[string]json.RawMessage" "" "")) ∧
    (∃ e, Sample.UnmarshalJSON { Type_ := "", Body := none } "\"one\"" (.value (.string "one"))
        = ({ Type_ := "", Body := none }, some e) ∧
      ((∃ msg, Scan.value (.string "one") = .invalid msg ∧ e = .SyntaxError msg) ∨
        ∃ k, e = .UnmarshalTypeError k "map[string]json.RawMessage" "" "")) ∧
    (∃ e, Sample.UnmarshalJSON { Type_ := "", Body := none } "\x7b"
        (.invalid "unexpected end of JSON input")
        = ({ Type_ := "", Body := none }, some e) ∧
      ((∃ msg, Scan.invalid "unexpected end of JSON input" = .invalid msg ∧
          e = .SyntaxError msg) ∨
        ∃ k, e = .UnmarshalTypeError k "map[string]json.RawMessage" "" "")) :=
  ⟨Or.inr ⟨.array [], rfl, by decide⟩,
    UnmarshalJSON_not_object _ "[]" (.value (.array [])) (Or.inr ⟨.array [], rfl, by decide⟩),
    UnmarshalJSON_not_object _ _ (.value (.string "one"))
      (Or.inr ⟨.string "one", rfl, by decide⟩),
    UnmarshalJSON_not_object _ _ (.invalid "unexpected end of JSON input") (Or.inl ⟨_, rfl⟩)⟩

/-- C9: the outcome does not depend on what the receiver held: for every input
and any two receivers the returned errors are equal (so the call succeeds on one
exactly when it succeeds on the other), and when no error is returned the two
resulting Samples are equal. -/
theorem UnmarshalJSON_receiver_independent (d : String) (doc : Scan) (s1 s2 : Sample) :
    (Sample.UnmarshalJSON s1 d doc).2 = (Sample.UnmarshalJSON s2 d doc).2 ∧
    ((Sample.UnmarshalJSON s1 d doc).2 = none →
      (Sample.UnmarshalJSON s1 d doc).1 = (Sample.UnmarshalJSON s2 d doc).1) := by
  rcases UnmarshalJSON_cases d doc with ⟨e, he, _⟩ | ⟨t, raw, ht⟩
  · rw [he s1, he s2]
    simp
  · rw [ht s1, ht s2]
    simp

/-- C10: run with the calls the library makes in turn, `UnmarshalJSON` returns on
every input and every receiver within a nesting depth of two calls, with the
outcome of `Sample.UnmarshalJSON`, and is entered once, by the call itself.  Its
one nested decode of the base fields goes into `sampleAlias`, and a decode into
`sampleAlias` enters the method zero times, whereas a decode of an object into
`Sample` enters it once.  The nested decode is really made: with a "body" present, a depth of one
call does not suffice. -/
theorem UnmarshalJSON_no_reentry (encode : List (String × JSON) → String) (depth : Nat)
    (s : Sample) (d : String) (doc : Scan) :
    runCall encode (depth + 2) .UnmarshalJSON s d doc
      = some (Sample.UnmarshalJSON s d doc, 1) ∧
    (∀ v data j, ∃ r, runCall encode (depth + 1) (.jsonUnmarshal .sampleAlias) v data
      (.value j) = some (r, 0)) ∧
    (∀ v data members, runCall encode (depth + 3) (.jsonUnmarshal .Sample) v data
        (.value (.object members))
      = some (Sample.UnmarshalJSON v data (.value (.object members)), 1)) ∧
    (∀ members, (∃ p ∈ members, p.1 = "body") →
      runCall encode 1 .UnmarshalJSON s d (.value (.object members)) = none) := by
  refine ⟨runCall_UnmarshalJSON encode depth s d doc, ?_, ?_, ?_⟩
  · intro v data j
    exact ⟨unmarshalFields v j, by simp [runCall, Dest.hasUnmarshalJSON]⟩
  · intro v data members
    rw [runCall]
    simp only [Dest.hasUnmarshalJSON, if_true]
    exact runCall_UnmarshalJSON encode depth v data (.value (.object members))
  · intro members hbody
    obtain ⟨rawBody, hraw⟩ :=
      Option.isSome_iff_exists.1 (objectMap_get_isSome members "body" hbody)
    simp [runCall, unmarshalRawMap, hraw]

/-- C13: for each of the three payload types and every string v, GetValue on a
payload whose Value is v returns v itself, called on the struct or through the
interface; the three behave alike on the same stored value. -/
theorem GetValue_verbatim (v : String) :
    (SampleBody1.mk v).GetValue = v ∧ (SampleBody2.mk v).GetValue = v ∧
    (SampleBody3.mk v).GetValue = v ∧
    (SampleBody.ofSampleBody1 { Value := v }).GetValue = v ∧
    (SampleBody.ofSampleBody2 { Value := v }).GetValue = v ∧
    (SampleBody.ofSampleBody3 { Value := v }).GetValue = v :=
  ⟨rfl, rfl, rfl, rfl, rfl, rfl⟩

/-- C14, as the claim states it, fails: for "type" "four" the message of the
returned error is "invalid type four", without a colon. -/
theorem UnmarshalJSON_invalid_type_message_counterexample :
    (Sample.UnmarshalJSON { Type_ := "", Body := none }
        "\x7b\"type\":\"four\",\"body\":\x7b\x7d\x7d"
        (.value (envelope "four" (.object [])))).2.map DecodeError.Error
      = some "invalid type four" ∧
    "invalid type four" ≠ "invalid type: four" := by
  decide

/-- C14, amended: when the object has a "body" and its other members decode to a
string x outside "one", "two", "three", the message of the returned error is
exactly "invalid type " followed by x (no colon); it is never "invalid type: "
followed by x. -/
theorem UnmarshalJSON_invalid_type_message (s : Sample) (d : String)
    (members : List (String × JSON)) (x : String)
    (hbody : ∃ p ∈ members, p.1 = "body")
    (hdec : decodedType members = some x)
    (hx : x ≠ "one" ∧ x ≠ "two" ∧ x ≠ "three") :
    ∃ e, (Sample.UnmarshalJSON s d (.value (.object members))).2 = some e ∧
      e.Error = "invalid type " ++ x ∧ e.Error ≠ "invalid type: " ++ x := by
  refine ⟨.invalidType x, ?_, rfl, ?_⟩
  · rw [UnmarshalJSON_invalid_of_decodedType s d members x hbody hdec hx]
  · intro h
    have h2 := congrArg (fun t => t.data.length) h
    simp [DecodeError.Error] at h2

theorem UnmarshalJSON_invalid_type_message_witness :
    ((∃ p ∈ [("type", JSON.string "four"), ("body", JSON.object [])], p.1 = "body") ∧
      decodedType [("type", JSON.string "four"), ("body", JSON.object [])] = some "four" ∧
      ("four" ≠ "one" ∧ "four" ≠ "two" ∧ "four" ≠ "three")) ∧
    ∃ e, (Sample.UnmarshalJSON { Type_ := "", Body := none }
        "\x7b\"type\":\"four\",\"body\":\x7b\x7d\x7d"
        (.value (.object [("type", .string "four"), ("body", .object [])]))).2 = some e ∧
      e.Error = "invalid type " ++ "four" ∧ e.Error ≠ "invalid type: " ++ "four" :=
  ⟨⟨⟨("body", JSON.object []), by simp, rfl⟩, by decide, by decide⟩,
    UnmarshalJSON_invalid_type_message _ _ _ "four" ⟨("body", JSON.object []), by simp, rfl⟩
      (by decide) (by decide)⟩

/-- C15, as the claim states it, fails: for the empty object the message of the
returned error is "no body: " followed by the input bytes, not "missing body". -/
theorem UnmarshalJSON_no_body_message_counterexample :
    (Sample.UnmarshalJSON { Type_ := "", Body := none } "\x7b\x7d"
        (.value (.object []))).2.map DecodeError.Error = some "no body: \x7b\x7d" ∧
    "no body: \x7b\x7d" ≠ "missing body" := by
  decide

/-- C15, amended: when the input is a JSON object without a member named "body",
the message of the returned error is exactly "no body: " followed by the input
bytes. -/
theorem UnmarshalJSON_no_body_message (s : Sample) (d : String)
    (members : List (String × JSON)) (h : ∀ p ∈ members, p.1 ≠ "body") :
    ∃ e, (Sample.UnmarshalJSON s d (.value (.object members))).2 = some e ∧
      e.Error = "no body: " ++ d := by
  refine ⟨.noBody d, ?_, rfl⟩
  simp [Sample.UnmarshalJSON, unmarshalRawMap, objectMap_get_none members "body" h]

theorem UnmarshalJSON_no_body_message_witness :
    (∀ p ∈ [("type", JSON.string "one")], p.1 ≠ "body") ∧
    ∃ e, (Sample.UnmarshalJSON { Type_ := "", Body := none } "\x7b\"type\":\"one\"\x7d"
        (.value (.object [("type", .string "one")]))).2 = some e ∧
      e.Error = "no body: " ++ "\x7b\"type\":\"one\"\x7d" :=
  ⟨by decide, UnmarshalJSON_no_body_message _ _ _ (by decide)⟩

/-- C17, as the claim states it, fails for null: with "type" "one" and "body"
null the call returns no error and the Body holds the empty string. -/
theorem UnmarshalJSON_body_not_object_counterexample :
    Sample.UnmarshalJSON { Type_ := "", Body := none }
        "\x7b\"type\":\"one\",\"body\":null\x7d"
        (.value (envelope "one" .null))
      = ({ Type_ := "one", Body := some (.ofSampleBody1 { Value := "" }) }, none) := by
  decide

/-- C17, amended: for every discriminant t among "one", "two", "three" and every
"body" that is a bare string, number, boolean or array, the call returns the
library type error for the payload struct that t selects (main.SampleBody1 for
"one", main.SampleBody2 for "two", main.SampleBody3 for "three"), naming the kind
of the body, and leaves Type t with Body nil. -/
theorem UnmarshalJSON_body_not_object (s : Sample) (d t : String) (body : JSON)
    (ht : t = "one" ∨ t = "two" ∨ t = "three")
    (hb : body.kind ∈ ["string", "number", "bool", "array"]) :
    ∃ g, ((t = "one" ∧ g = "main.SampleBody1") ∨ (t = "two" ∧ g = "main.SampleBody2") ∨
        (t = "three" ∧ g = "main.SampleBody3")) ∧
      Sample.UnmarshalJSON s d (.value (envelope t body))
        = ({ Type_ := t, Body := none }, some (.UnmarshalTypeError body.kind g "" "")) := by
  rw [UnmarshalJSON_envelope]
  rcases ht with rfl | rfl | rfl
  · exact ⟨"main.SampleBody1", Or.inl ⟨rfl, rfl⟩, by
      simp [unmarshalBody, unmarshalValueStruct_not_object _ body hb, SampleType1]⟩
  · exact ⟨"main.SampleBody2", Or.inr (Or.inl ⟨rfl, rfl⟩), by
      simp [unmarshalBody, unmarshalValueStruct_not_object _ body hb, SampleType1, SampleType2]⟩
  · exact ⟨"main.SampleBody3", Or.inr (Or.inr ⟨rfl, rfl⟩), by
      simp [unmarshalBody, unmarshalValueStruct_not_object _ body hb, SampleType1, SampleType2,
        SampleType3]⟩

theorem UnmarshalJSON_body_not_object_witness :
    (("two" = "one" ∨ "two" = "two" ∨ "two" = "three") ∧
      (JSON.array []).kind ∈ ["string", "number", "bool", "array"]) ∧
    (∃ g, (("two" = "one" ∧ g = "main.SampleBody1") ∨ ("two" = "two" ∧ g = "main.SampleBody2") ∨
        ("two" = "three" ∧ g = "main.SampleBody3")) ∧
      Sample.UnmarshalJSON { Type_ := "", Body := none }
        "\x7b\"type\":\"two\",\"body\":[]\x7d" (.value (envelope "two" (.array [])))
        = ({ Type_ := "two", Body := none },
            some (.UnmarshalTypeError (JSON.array []).kind g "" ""))) ∧
    Sample.UnmarshalJSON { Type_ := "", Body := none }
        "\x7b\"type\":\"two\",\"body\":[]\x7d" (.value (envelope "two" (.array [])))
      = ({ Type_ := "two", Body := none },
          some (.UnmarshalTypeError "array" "main.SampleBody2" "" "")) :=
  ⟨⟨by decide, by decide⟩,
    UnmarshalJSON_body_not_object _ _ "two" (.array []) (by decide) (by decide),
    by decide⟩

/-- C16, as the claim states it, fails: the object has "type" "four" and a "body",
and also a member "Body" holding a number; the call returns the library type
error of the base-field decode for the field body, not the invalid-type error. -/
theorem UnmarshalJSON_type_before_body_counterexample :
    Sample.UnmarshalJSON { Type_ := "", Body := none }
        "\x7b\"type\":\"four\",\"Body\":1,\"body\":1\x7d"
        (.value (.object [("type", .string "four"), ("Body", .number "1"),
          ("body", .number "1")]))
      = ({ Type_ := "", Body := none },
          some (.UnmarshalTypeError "number" "main.SampleBody" "sampleAlias" "body")) := by
  decide

/-- C16, amended: for every JSON object that has a member named "body", of any
JSON shape, and whose other members decode without error to a Type x outside
"one", "two", "three", the call returns the invalid-type error for x and never a
library type error: the body is not decoded before the type has selected a
payload struct. -/
theorem UnmarshalJSON_type_before_body (s : Sample) (d : String)
    (members : List (String × JSON)) (x : String)
    (hbody : ∃ p ∈ members, p.1 = "body")
    (hdec : decodedType members = some x)
    (hx : x ≠ "one" ∧ x ≠ "two" ∧ x ≠ "three") :
    Sample.UnmarshalJSON s d (.value (.object members))
      = ({ Type_ := x, Body := none }, some (.invalidType x)) ∧
    ∀ k ty g f, (Sample.UnmarshalJSON s d (.value (.object members))).2
      ≠ some (.UnmarshalTypeError k ty g f) := by
  rw [UnmarshalJSON_invalid_of_decodedType s d members x hbody hdec hx]
  exact ⟨rfl, fun k ty g f h => by simp at h⟩

/-- Bodies no payload struct could hold: a number, and an object whose "value" is a number. -/
theorem UnmarshalJSON_type_before_body_witness :
    ((∃ p ∈ [("type", JSON.string "four"), ("body", JSON.number "1")], p.1 = "body") ∧
      decodedType [("type", JSON.string "four"), ("body", JSON.number "1")] = some "four" ∧
      ("four" ≠ "one" ∧ "four" ≠ "two" ∧ "four" ≠ "three")) ∧
    (Sample.UnmarshalJSON { Type_ := "", Body := none }
        "\x7b\"type\":\"four\",\"body\":1\x7d"
        (.value (.object [("type", .string "four"), ("body", .number "1")]))
      = ({ Type_ := "four", Body := none }, some (.invalidType "four")) ∧
      ∀ k ty g f, (Sample.UnmarshalJSON { Type_ := "", Body := none }
        "\x7b\"type\":\"four\",\"body\":1\x7d"
        (.value (.object [("type", .string "four"), ("body", .number "1")]))).2
        ≠ some (.UnmarshalTypeError k ty g f)) ∧
    Sample.UnmarshalJSON { Type_ := "", Body := none }
        "\x7b\"type\":\"four\",\"body\":\x7b\"value\":1\x7d\x7d"
        (.value (.object [("type", .string "four"),
          ("body", .object [("value", .number "1")])]))
      = ({ Type_ := "four", Body := none }, some (.invalidType "four")) :=
  ⟨⟨⟨("body", JSON.number "1"), by simp, rfl⟩, by decide, by decide⟩,
    UnmarshalJSON_type_before_body _ _ _ "four" ⟨("body", JSON.number "1"), by simp, rfl⟩
      (by decide) (by decide),
    (UnmarshalJSON_type_before_body _ _ _ "four"
      ⟨("body", JSON.object [("value", .number "1")]), by simp, rfl⟩
      (by decide) (by decide)).1⟩

/-- C18, as the claim states it, fails: a well-formed envelope with the further
member "Body" holding a number no longer decodes; the call returns the library
type error of the base-field decode for the field body. -/
theorem UnmarshalJSON_unknown_fields_counterexample :
    Sample.UnmarshalJSON { Type_ := "", Body := none }
        "\x7b\"type\":\"one\",\"body\":\x7b\"value\":\"v\"\x7d,\"Body\":1\x7d"
        (.value (.object [("type", .string "one"),
          ("body", .object [("value", .string "v")]), ("Body", .number "1")]))
      = ({ Type_ := "", Body := none },
          some (.UnmarshalTypeError "number" "main.SampleBody" "sampleAlias" "body")) := by
  decide

/-- C18, amended: for every well-formed envelope with "type" t among "one",
"two", "three" and "body" an object with "value" v, further top-level members
whose names match neither "type" nor "body", not even up to letter case, put
before, between or after the two, with any JSON values, leave the outcome as it
is: the call returns no error, with Type t and a Body whose GetValue is v. -/
theorem UnmarshalJSON_unknown_fields (s : Sample) (d t v : String)
    (e1 e2 e3 : List (String × JSON))
    (ht : t = "one" ∨ t = "two" ∨ t = "three")
    (h : ∀ p ∈ e1 ++ e2 ++ e3,
      matchesField p.1 "type" = false ∧ matchesField p.1 "body" = false) :
    ∃ b, Sample.UnmarshalJSON s d (.value (.object
          (e1 ++ ("type", .string t) :: (e2 ++ ("body", .object [("value", .string v)]) :: e3))))
        = ({ Type_ := t, Body := some b }, none) ∧ b.GetValue = v := by
  rw [UnmarshalJSON_extras s d t _ e1 e2 e3 h]
  rcases ht with rfl | rfl | rfl
  · exact ⟨.ofSampleBody1 ⟨v⟩, rfl, rfl⟩
  · exact ⟨.ofSampleBody2 ⟨v⟩, rfl, rfl⟩
  · exact ⟨.ofSampleBody3 ⟨v⟩, rfl, rfl⟩

theorem UnmarshalJSON_unknown_fields_witness :
    (("one" = "one" ∨ "one" = "two" ∨ "one" = "three") ∧
      ∀ p ∈ [("id", JSON.number "7")] ++ [("types", JSON.null)] ++ [("note", JSON.array [])],
        matchesField p.1 "type" = false ∧ matchesField p.1 "body" = false) ∧
    ∃ b, Sample.UnmarshalJSON { Type_ := "", Body := none }
        "\x7b\"id\":7,\"type\":\"one\",\"types\":null,\"body\":\x7b\"value\":\"v\"\x7d,\"note\":[]\x7d"
        (.value (.object ([("id", JSON.number "7")] ++ ("type", .string "one") ::
          ([("types", JSON.null)] ++ ("body", .object [("value", .string "v")]) ::
            [("note", JSON.array [])]))))
        = ({ Type_ := "one", Body := some b }, none) ∧ b.GetValue = "v" :=
  ⟨⟨by decide, by decide⟩,
    UnmarshalJSON_unknown_fields _ _ "one" "v" _ _ _ (by decide) (by decide)⟩

/-- C11: for every collection object with "id" i and "samples" an object whose
entries have distinct keys and are well-formed envelopes (type among "one",
"two", "three", body an object with a string "value"), the decode into
SampleGroup returns no error, with ID i and Samples holding exactly the keys of
the entries, each key leading to a Sample with the type of its entry and a Body
whose GetValue is the value of its entry. -/
theorem unmarshalSampleGroup_wellformed (spell : JSON → String) (i : String)
    (entries : List (String × String × String))
    (hkeys : (entries.map (fun e => e.1)).Nodup)
    (ht : ∀ e ∈ entries, e.2.1 = "one" ∨ e.2.1 = "two" ∨ e.2.1 = "three") :
    ∃ g, unmarshalSampleGroup spell (.value (groupObject i (entries.map (fun e =>
          (e.1, envelope e.2.1 (.object [("value", .string e.2.2)])))))) = (g, none) ∧
      g.ID = i ∧ g.Samples.map (fun p => p.1) = entries.map (fun e => e.1) ∧
      ∀ e ∈ entries, ∃ smp b, g.Samples.get e.1 = some smp ∧ smp.Type_ = e.2.1 ∧
        smp.Body = some b ∧ b.GetValue = e.2.2 := by
  have hok : ∀ p ∈ entries.map (fun e =>
      (e.1, envelope e.2.1 (.object [("value", .string e.2.2)]))),
      (decodeEntry spell p.2).2 = none := by
    intro p hp
    obtain ⟨e, he, rfl⟩ := List.mem_map.1 hp
    obtain ⟨b, hb, _⟩ := UnmarshalJSON_wellformed { Type_ := "", Body := none }
      (spell (envelope e.2.1 (.object [("value", .string e.2.2)]))) e.2.1 e.2.2 (ht e he)
    simp only [decodeEntry, hb]
  have h1 : matchesField "id" "id" = true := by decide
  have h2 : matchesField "samples" "id" = false := by decide
  have h3 : matchesField "samples" "samples" = true := by decide
  have hfold : (entries.map (fun e =>
        (e.1, envelope e.2.1 (.object [("value", .string e.2.2)])))).foldl
        (fun m p => SampleMap.set m p.1 (decodeEntry spell p.2).1) []
      = entries.map (fun e => (e.1, (decodeEntry spell
          (envelope e.2.1 (.object [("value", .string e.2.2)]))).1)) := by
    rw [List.foldl_map]
    have := SampleMap.foldl_set_fresh (entries.map (fun e => (e.1, (decodeEntry spell
      (envelope e.2.1 (.object [("value", .string e.2.2)]))).1))) []
      (by simpa [List.map_map, Function.comp_def] using hkeys) (fun p hp => by cases hp)
    rw [List.foldl_map] at this
    simpa using this
  refine ⟨{ ID := i, Samples := entries.map (fun e => (e.1, (decodeEntry spell
      (envelope e.2.1 (.object [("value", .string e.2.2)]))).1)) }, ?_, rfl, ?_, ?_⟩
  · simp only [unmarshalSampleGroup, groupObject, unmarshalGroupMembers, List.foldl_cons,
      List.foldl_nil, groupMember, h1, h2, h3, unmarshalSamples_ok spell _ hok, hfold, if_true]
    simp
  · simp [List.map_map, Function.comp_def]
  · intro e he
    obtain ⟨b, hb, hv⟩ := UnmarshalJSON_wellformed { Type_ := "", Body := none }
      (spell (envelope e.2.1 (.object [("value", .string e.2.2)]))) e.2.1 e.2.2 (ht e he)
    refine ⟨{ Type_ := e.2.1, Body := some b }, b, ?_, rfl, rfl, hv⟩
    apply SampleMap.get_of_mem
    · simpa [List.map_map, Function.comp_def] using hkeys
    · apply List.mem_map.2
      exact ⟨e, he, by simp only [decodeEntry, hb]⟩

/-- The input of `main`: ID "123" and, under the keys "1", "2", "3", the values
"this is a value 1", "this is a value 2", "this is a value 3". -/
theorem unmarshalSampleGroup_wellformed_witness :
    (([("1", "one", "this is a value 1"), ("2", "two", "this is a value 2"),
        ("3", "three", "this is a value 3")].map (fun e => e.1)).Nodup ∧
      ∀ e ∈ [("1", "one", "this is a value 1"), ("2", "two", "this is a value 2"),
        ("3", "three", "this is a value 3")], e.2.1 = "one" ∨ e.2.1 = "two" ∨ e.2.1 = "three") ∧
    ∃ g, unmarshalSampleGroup (fun _ => "") (.value mainInput) = (g, none) ∧
      g.ID = "123" ∧
      g.Samples.map (fun p => p.1) = [("1", "one", "this is a value 1"),
        ("2", "two", "this is a value 2"), ("3", "three", "this is a value 3")].map
          (fun e => e.1) ∧
      ∀ e ∈ [("1", "one", "this is a value 1"), ("2", "two", "this is a value 2"),
          ("3", "three", "this is a value 3")],
        ∃ smp b, g.Samples.get e.1 = some smp ∧ smp.Type_ = e.2.1 ∧
          smp.Body = some b ∧ b.GetValue = e.2.2 :=
  ⟨⟨by decide, by decide⟩, unmarshalSampleGroup_wellformed _ "123"
    [("1", "one", "this is a value 1"), ("2", "two", "this is a value 2"),
      ("3", "three", "this is a value 3")] (by decide) (by decide)⟩

/-- C12, as the claim states it, fails: the collection has "id" 5 and one entry
whose type is "four"; the decode of the entry returns the invalid-type error, but
the decode of the collection returns the type error met before it, on "id". -/
theorem unmarshalSampleGroup_bad_entry_counterexample :
    (decodeEntry (fun _ => "\x7b\"type\":\"four\",\"body\":\x7b\x7d\x7d")
        (envelope "four" (.object []))).2 = some (.invalidType "four") ∧
    (unmarshalSampleGroup (fun _ => "\x7b\"type\":\"four\",\"body\":\x7b\x7d\x7d")
        (.value (.object [("id", .number "5"),
          ("samples", .object [("1", envelope "four" (.object []))])]))).2
      = some (.UnmarshalTypeError "number" "string" "SampleGroup" "id") := by
  decide

/-- C12, amended: when an entry of a "samples" object of a collection is an
envelope that fails to decode, after entries that decode, the decode of the whole
SampleGroup returns an error, whatever the other members and the later entries
are; and when the members before "samples" decode without error, the error
returned is that envelope's error itself. -/
theorem unmarshalSampleGroup_bad_entry (spell : JSON → String)
    (pre post : List (String × JSON)) (k : String) (good rest : List (String × JSON))
    (key : String) (bad : List (String × JSON)) (e : DecodeError)
    (hk : matchesField k "samples" = true)
    (hgood : ∀ q ∈ good, (decodeEntry spell q.2).2 = none)
    (hbad : (decodeEntry spell (.object bad)).2 = some e) :
    (∃ err, (unmarshalSampleGroup spell (.value (.object
        (pre ++ (k, .object (good ++ (key, .object bad) :: rest)) :: post)))).2 = some err) ∧
    ((unmarshalSampleGroup spell (.value (.object pre))).2 = none →
      (unmarshalSampleGroup spell (.value (.object
        (pre ++ (k, .object (good ++ (key, .object bad) :: rest)) :: post)))).2 = some e) := by
  have hres := unmarshalGroupMembers_first_fail spell pre post k good rest key (.object bad) e
    hk hgood hbad ({ ID := "", Samples := [] }, none)
  simp only [unmarshalSampleGroup]
  rw [hres]
  constructor
  · cases (unmarshalGroupMembers spell pre ({ ID := "", Samples := [] }, none)).2 with
    | none => exact ⟨e, rfl⟩
    | some e0 => exact ⟨e0, rfl⟩
  · intro hpre
    rw [hpre]

/-- A collection whose second entry of three has the type "four": the decode
returns the invalid-type error of that entry. -/
theorem unmarshalSampleGroup_bad_entry_witness :
    (matchesField "samples" "samples" = true ∧
      (∀ q ∈ [("1", envelope "one" (.object [("value", .string "v")]))],
        (decodeEntry (fun _ => "") q.2).2 = none) ∧
      (decodeEntry (fun _ => "")
        (.object [("type", .string "four"), ("body", .object [("value", .string "w")])])).2
        = some (.invalidType "four")) ∧
    ((∃ err, (unmarshalSampleGroup (fun _ => "") (.value (.object
        ([("id", JSON.string "123")] ++ ("samples", .object
          ([("1", envelope "one" (.object [("value", .string "v")]))] ++
            ("2", .object [("type", .string "four"),
              ("body", .object [("value", .string "w")])]) ::
            [("3", envelope "three" (.object [("value", .string "x")]))])) :: [])))).2
        = some err) ∧
      ((unmarshalSampleGroup (fun _ => "") (.value (.object [("id", JSON.string "123")]))).2
          = none →
        (unmarshalSampleGroup (fun _ => "") (.value (.object
          ([("id", JSON.string "123")] ++ ("samples", .object
            ([("1", envelope "one" (.object [("value", .string "v")]))] ++
              ("2", .object [("type", .string "four"),
                ("body", .object [("value", .string "w")])]) ::
              [("3", envelope "three" (.object [("value", .string "x")]))])) :: [])))).2
          = some (.invalidType "four"))) ∧
    (unmarshalSampleGroup (fun _ => "") (.value (.object [("id", JSON.string "123")]))).2
      = none :=
  ⟨⟨by decide, by decide, by decide⟩,
    unmarshalSampleGroup_bad_entry (fun _ => "") [("id", JSON.string "123")] [] "samples"
      [("1", envelope "one" (.object [("value", .string "v")]))]
      [("3", envelope "three" (.object [("value", .string "x")]))] "2"
      [("type", .string "four"), ("body", .object [("value", .string "w")])]
      (.invalidType "four") (by decide) (by decide) (by decide),
    by decide⟩

end Main
